import Mathlib

/-!
# Verification of the sogcli Calendar Interchange & Scheduling Engine

Shallow embedding of the calendar record mapper (src/internal/caldav/client.go,
src/internal/config/config.go) and the iTIP scheduling encoder/decoder
(package itip).  Go strings are modelled as `List Char`; `time.Time` instants
are modelled as a count of seconds (`Nat`), with `0` standing for Go's zero
time; `time.Duration` spans likewise as seconds.  The interchange document is
modelled structurally (properties, parameters, components); the byte-level
line folding and escaping of the external interchange codec are beneath this
model, per the specification, which delegates them to that codec.
-/

namespace Sogcli

/-- Go strings, modelled as lists of characters. -/
abbrev GoStr := List Char

/-- Model of Go `strings.ToLower` (ASCII case mapping). -/
def goToLower (s : GoStr) : GoStr := s.map Char.toLower

/-- Model of Go `strings.ToUpper` (ASCII case mapping). -/
def goToUpper (s : GoStr) : GoStr := s.map Char.toUpper

/-- Model of Go `strings.HasPrefix s pre`. -/
def goHasPref (s pre : GoStr) : Bool := pre.isPrefixOf s

/-- Model of Go `strings.TrimPrefix s pre`. -/
def goTrimPref (s pre : GoStr) : GoStr :=
  if pre.isPrefixOf s then s.drop pre.length else s

/-- Model of Go `strings.Split s ","` (single-character separator). -/
def goSplitComma : GoStr → List GoStr
  | [] => [[]]
  | c :: cs =>
    if c = ',' then [] :: goSplitComma cs
    else
      match goSplitComma cs with
      | r :: rs => (c :: r) :: rs
      | [] => [[c]]

/-- Model of Go `strings.Join xs ","`. -/
def goJoinComma : List GoStr → GoStr
  | [] => []
  | [x] => x
  | x :: xs => x ++ ',' :: goJoinComma xs

/-- Decimal rendering of a natural number, model of Go `fmt.Sprintf` with a
`%d` verb (task and invite fields modelled here are non-negative). -/
def natToChars (n : Nat) : GoStr :=
  if n = 0 then ['0'] else ((Nat.digits 10 n).map Nat.digitChar).reverse

/-- Numeric value of a decimal digit character. -/
def charDigit (c : Char) : Nat := c.toNat - 48

/-- Parse a non-empty all-digit string as a natural number. -/
def charsToNat? (s : GoStr) : Option Nat :=
  if s ≠ [] ∧ s.all Char.isDigit then
    some (Nat.ofDigits 10 ((s.map charDigit).reverse))
  else none

/-- Model of Go `fmt.Sscanf` with a `%d` verb: reads the leading decimal
digits; when nothing parses the scanned-into variable keeps its prior
value (the callers in this repository pass zero-initialised fields). -/
def sscanfNat (s : GoStr) (old : Nat) : Nat :=
  match charsToNat? (s.takeWhile Char.isDigit) with
  | some n => n
  | none => old

/-! ## The interchange document, modelled structurally

A property carries a name, a parameter association list (model of the
go-ical `Params` map: `Get` returns the first binding or the empty string,
`Set` replaces all bindings of a key) and a raw textual value. -/

/-- One interchange property (go-ical `Prop`). -/
structure IProp where
  name : String
  params : List (String × GoStr)
  value : GoStr
deriving DecidableEq

/-- Model of `Params.Get`: first binding for the key, or the empty string. -/
def paramsGet (ps : List (String × GoStr)) (k : String) : GoStr :=
  match ps.find? (fun p => p.1 == k) with
  | some p => p.2
  | none => []

/-- Model of `Params.Set`: replace every binding of the key by the single new one. -/
def paramsSet (ps : List (String × GoStr)) (k : String) (v : GoStr) :
    List (String × GoStr) :=
  ps.filter (fun p => p.1 ≠ k) ++ [(k, v)]

/-- A property multiset (go-ical `Props`, a map from a name to the list of
properties with that name; modelled as a flat list, with every access going
through the name-filtering operations below). -/
abbrev IProps := List IProp

/-- Model of `Props.Get`: the first property with the given name, if any. -/
def propsGet (ps : IProps) (n : String) : Option IProp :=
  ps.find? (fun p => p.name == n)

/-- Model of `Props.Values`: all properties with the given name, in insertion order. -/
def propsValues (ps : IProps) (n : String) : IProps :=
  ps.filter (fun p => p.name == n)

/-- Model of `Props.Set`: replace every property with the same name by the new one. -/
def propsSet (ps : IProps) (p : IProp) : IProps :=
  ps.filter (fun q => q.name ≠ p.name) ++ [p]

/-- Model of `Props.Add`: append one more property with the given name. -/
def propsAdd (ps : IProps) (p : IProp) : IProps := ps ++ [p]

/-- Model of `Props.SetText`: set a property holding a plain text value (the VALUE=TEXT
defaulting done by the codec is elided; no decoder in this repository reads
the value-type parameter of a text property). -/
def propsSetText (ps : IProps) (n : String) (v : GoStr) : IProps :=
  propsSet ps ⟨n, [], v⟩

/-- One component of an interchange document (go-ical `Component`; the
components of this repository carry no grandchildren). -/
structure IComponent where
  name : String
  props : IProps
deriving DecidableEq

/-- A top-level interchange document (go-ical `Calendar`). -/
structure ICalendar where
  props : IProps
  children : List IComponent
deriving DecidableEq

/-- A byte payload for the external interchange codec: either it decodes to a
document or it is malformed.  Line folding and escaping are the external
codec's concern and are beneath this model. -/
inductive ICalBytes
  | ok (cal : ICalendar)
  | malformed
deriving DecidableEq

/-! ### Lemma kit for the property operations -/

/-! ## Property codec (dates, date-times, durations)

The pieces below model the property codec beneath the record mapper — the
go-ical helpers `SetDate`, `SetDateTime`, `Prop.DateTime` and
`Prop.Duration`, whose source is not part of this repository. -/

/-- Seconds per calendar day. -/
def secPerDay : Nat := 86400

/-- Interchange property names and parameter names used by the mappers. -/
def compEvent : String := "VEVENT"

def compToDo : String := "VTODO"

def propVersion : String := "VERSION"

def propProductID : String := "PRODID"

def propMethod : String := "METHOD"

def propUID : String := "UID"

def propSummary : String := "SUMMARY"

def propDescription : String := "DESCRIPTION"

def propLocation : String := "LOCATION"

def propOrganizer : String := "ORGANIZER"

def propAttendee : String := "ATTENDEE"

def propStatus : String := "STATUS"

def propURL : String := "URL"

def propDateTimeStart : String := "DTSTART"

def propDateTimeEnd : String := "DTEND"

def propDateTimeStamp : String := "DTSTAMP"

def propDurationName : String := "DURATION"

def propCreated : String := "CREATED"

def propSequence : String := "SEQUENCE"

def propComment : String := "COMMENT"

def propDue : String := "DUE"

def propCompleted : String := "COMPLETED"

def propPriority : String := "PRIORITY"

def propPercentComplete : String := "PERCENT-COMPLETE"

def propCategories : String := "CATEGORIES"

def paramValue : String := "VALUE"

def paramCN : String := "CN"

def paramPartStat : String := "PARTSTAT"

def paramRSVP : String := "RSVP"

/-- The transport-address scheme on participant addresses. -/
def mailtoPre : GoStr := "mailto:".toList

/-- Modelled from the spec: the date-only form of `encodeDateOrDateTime`
(go-ical `Prop.SetDate`).  It tags the property with the date-only
value-type parameter and renders only the calendar day, discarding any
time-of-day the instant carries. -/
def propSetDate (p : IProp) (t : Nat) : IProp :=
  { p with params := paramsSet p.params paramValue ("DATE".toList),
           value := natToChars (t / secPerDay) }

/-- Modelled from the spec: the full date-time form of `encodeDateOrDateTime`
(go-ical `Prop.SetDateTime`).  It tags the property with the date-time
value-type parameter and renders the full instant. -/
def propSetDateTime (p : IProp) (t : Nat) : IProp :=
  { p with params := paramsSet p.params paramValue ("DATE-TIME".toList),
           value := natToChars t }

/-- Modelled from the spec: `decodeDateTime` (go-ical `Prop.DateTime`).
It dispatches on the value-type parameter — a date-only value denotes
midnight of that day — and fails (`none`) on a malformed value. -/
def propDateTime (p : IProp) : Option Nat :=
  if paramsGet p.params paramValue = "DATE".toList then
    (charsToNat? p.value).map (fun d => d * secPerDay)
  else charsToNat? p.value

/-- Modelled from the spec: a duration property value, a span of seconds
(go-ical `Prop.Duration`); fails (`none`) on a malformed value. -/
def propDurationVal (p : IProp) : Option Nat := charsToNat? p.value

/-- go-ical `Props.SetDateTime`: set a named date-time property. -/
def propsSetDateTime (ps : IProps) (n : String) (t : Nat) : IProps :=
  propsSet ps (propSetDateTime ⟨n, [], []⟩ t)

/-! ## The Event record mapper (src/internal/caldav/client.go) -/

/-- A calendar event (struct `Event`).  The opaque `ETag` version token is
omitted: it is attached by the transport layer, never by the mapper. -/
structure Event where
  uid : GoStr
  summary : GoStr
  description : GoStr
  location : GoStr
  start : Nat
  end_ : Nat
  allDay : Bool
  organizer : GoStr
  attendees : List GoStr
  status : GoStr
  url : GoStr
deriving DecidableEq

/-- Field extraction for one VEVENT component — the body of the loop in
`parseICalEvent` (client.go lines 237-306).  Every field starts at its zero
value; a missing property or a malformed date/time value leaves it there. -/
def parseEventProps (ps : IProps) : Event :=
  let uid := match propsGet ps propUID with
    | some p => p.value
    | none => []
  let summary := match propsGet ps propSummary with
    | some p => p.value
    | none => []
  let description := match propsGet ps propDescription with
    | some p => p.value
    | none => []
  let location := match propsGet ps propLocation with
    | some p => p.value
    | none => []
  let organizer := match propsGet ps propOrganizer with
    | some p => goTrimPref p.value mailtoPre
    | none => []
  let status := match propsGet ps propStatus with
    | some p => p.value
    | none => []
  let url := match propsGet ps propURL with
    | some p => p.value
    | none => []
  let startAllDay := match propsGet ps propDateTimeStart with
    | some p =>
      (match propDateTime p with
       | some t => t
       | none => 0,
       paramsGet p.params paramValue == "DATE".toList)
    | none => (0, false)
  let start := startAllDay.1
  let allDay := startAllDay.2
  let endV := match propsGet ps propDateTimeEnd with
    | some p =>
      match propDateTime p with
      | some t => t
      | none => 0
    | none =>
      match propsGet ps propDurationName with
      | some p =>
        match propDurationVal p with
        | some d => if start ≠ 0 then start + d else 0
        | none => 0
      | none => 0
  let attendees := (propsValues ps propAttendee).map (fun p => goTrimPref p.value mailtoPre)
  ⟨uid, summary, description, location, start, endV, allDay, organizer,
    attendees, status, url⟩

/-- Model of `parseICalEvent`: scan the document's top-level components for the first
VEVENT; fail when none is present.  (The nil-calendar guard of the Go code
has no counterpart: a Lean `ICalendar` value always exists.) -/
def parseICalEvent (cal : ICalendar) : Except String Event :=
  match cal.children.find? (fun c => c.name == compEvent) with
  | some c => .ok (parseEventProps c.props)
  | none => .error "no VEVENT found in calendar data"

/-- The VEVENT property list built by `createICalEvent` (client.go lines
318-367): required UID/SUMMARY, optional text properties only when non-empty,
start/end in the date-only or date-time form per the all-day flag, organizer
and attendees with the transport prefix prepended (the attendee loop of
`Props.Add` calls appends one property per attendee, modelled as a list
append), and a DTSTAMP of the current instant. -/
def eventCompProps (now : Nat) (e : Event) : IProps :=
  let vp := propsSetText [] propUID e.uid
  let vp := propsSetText vp propSummary e.summary
  let vp := if e.description ≠ [] then propsSetText vp propDescription e.description else vp
  let vp := if e.location ≠ [] then propsSetText vp propLocation e.location else vp
  let vp := if e.url ≠ [] then propsSetText vp propURL e.url else vp
  let vp := if e.status ≠ [] then propsSetText vp propStatus e.status else vp
  let vp := if e.allDay then
      propsSet (propsSet vp (propSetDate ⟨propDateTimeStart, [], []⟩ e.start))
        (propSetDate ⟨propDateTimeEnd, [], []⟩ e.end_)
    else
      propsSet (propsSet vp (propSetDateTime ⟨propDateTimeStart, [], []⟩ e.start))
        (propSetDateTime ⟨propDateTimeEnd, [], []⟩ e.end_)
  let vp := if e.organizer ≠ [] then propsSetText vp propOrganizer (mailtoPre ++ e.organizer) else vp
  let vp := vp ++ e.attendees.map (fun a => (⟨propAttendee, [], mailtoPre ++ a⟩ : IProp))
  propsSet vp (propSetDateTime ⟨propDateTimeStamp, [], []⟩ now)

/-- Model of `createICalEvent`: a document wrapper (version marker, product
identifier) holding exactly one VEVENT component. -/
def createICalEvent (now : Nat) (e : Event) : ICalendar :=
  { props := propsSetText (propsSetText [] propVersion ("2.0".toList))
      propProductID ("-//sog//CalDAV Client//EN".toList),
    children := [⟨compEvent, eventCompProps now e⟩] }

/-! ## The Task record mapper (src/internal/config/config.go) -/

/-- A task (struct `Task`); the `ETag` version token is again omitted. -/
structure Task where
  uid : GoStr
  summary : GoStr
  description : GoStr
  due : Nat
  start : Nat
  completed : Nat
  status : GoStr
  priority : Nat
  percent : Nat
  categories : List GoStr
deriving DecidableEq

/-- Field extraction for one VTODO component — the body of the loop in
`parseICalTask` (config.go lines 728-791).  Status defaults to NEEDS-ACTION;
malformed integer or date/time values leave their field at the zero value. -/
def parseTaskProps (ps : IProps) : Task :=
  let uid := match propsGet ps propUID with
    | some p => p.value
    | none => []
  let summary := match propsGet ps propSummary with
    | some p => p.value
    | none => []
  let description := match propsGet ps propDescription with
    | some p => p.value
    | none => []
  let status := match propsGet ps propStatus with
    | some p => p.value
    | none => "NEEDS-ACTION".toList
  let priority := match propsGet ps propPriority with
    | some p => sscanfNat p.value 0
    | none => 0
  let percent := match propsGet ps propPercentComplete with
    | some p => sscanfNat p.value 0
    | none => 0
  let due := match propsGet ps propDue with
    | some p =>
      match propDateTime p with
      | some t => t
      | none => 0
    | none => 0
  let start := match propsGet ps propDateTimeStart with
    | some p =>
      match propDateTime p with
      | some t => t
      | none => 0
    | none => 0
  let completed := match propsGet ps propCompleted with
    | some p =>
      match propDateTime p with
      | some t => t
      | none => 0
    | none => 0
  let categories := match propsGet ps propCategories with
    | some p => goSplitComma p.value
    | none => []
  ⟨uid, summary, description, due, start, completed, status, priority,
    percent, categories⟩

/-- Model of `parseICalTask`: first VTODO component wins; fail when none is present. -/
def parseICalTask (cal : ICalendar) : Except String Task :=
  match cal.children.find? (fun c => c.name == compToDo) with
  | some c => .ok (parseTaskProps c.props)
  | none => .error "no VTODO found in calendar data"

/-- The VTODO property list built by `createICalTask` (config.go lines
803-856): required UID/SUMMARY, optional text properties when non-empty,
integer properties when positive, date-time properties when non-zero,
categories joined with commas, and a DTSTAMP of the current instant. -/
def taskCompProps (now : Nat) (t : Task) : IProps :=
  let vp := propsSetText [] propUID t.uid
  let vp := propsSetText vp propSummary t.summary
  let vp := if t.description ≠ [] then propsSetText vp propDescription t.description else vp
  let vp := if t.status ≠ [] then propsSetText vp propStatus t.status else vp
  let vp := if t.priority > 0 then propsSet vp ⟨propPriority, [], natToChars t.priority⟩ else vp
  let vp := if t.percent > 0 then propsSet vp ⟨propPercentComplete, [], natToChars t.percent⟩ else vp
  let vp := if t.due ≠ 0 then propsSet vp (propSetDateTime ⟨propDue, [], []⟩ t.due) else vp
  let vp := if t.start ≠ 0 then propsSet vp (propSetDateTime ⟨propDateTimeStart, [], []⟩ t.start) else vp
  let vp := if t.completed ≠ 0 then propsSet vp (propSetDateTime ⟨propCompleted, [], []⟩ t.completed) else vp
  let vp := if t.categories ≠ [] then propsSetText vp propCategories (goJoinComma t.categories) else vp
  propsSet vp (propSetDateTime ⟨propDateTimeStamp, [], []⟩ now)

/-- Model of `createICalTask`: a document wrapper holding exactly one VTODO. -/
def createICalTask (now : Nat) (t : Task) : ICalendar :=
  { props := propsSetText (propsSetText [] propVersion ("2.0".toList))
      propProductID ("-//sog//CalDAV Client//EN".toList),
    children := [⟨compToDo, taskCompProps now t⟩] }

/-- The record transition performed by `Client.CompleteTask` (config.go lines
531-541); the storage fetch and write-back around it belong to the external
directory-access collaborator and are elided. -/
def completeTaskRecord (now : Nat) (t : Task) : Task :=
  { t with status := "COMPLETED".toList, completed := now, percent := 100 }

/-- The record transition performed by `Client.UncompleteTask` (config.go
lines 543-553). -/
def uncompleteTaskRecord (t : Task) : Task :=
  { t with status := "NEEDS-ACTION".toList, completed := 0, percent := 0 }

/-! ## The iTIP scheduling encoder/decoder (package itip) -/

/-- An organizer or attendee (struct `Participant`); participation status is
a free string in the source (`ParticipantStatus`), zero value empty. -/
structure Participant where
  email : GoStr
  name : GoStr
  status : GoStr
  rsvp : Bool
deriving DecidableEq

/-- A meeting invitation in flight (struct `Invite`). -/
structure Invite where
  method : GoStr
  uid : GoStr
  summary : GoStr
  description : GoStr
  location : GoStr
  start : Nat
  end_ : Nat
  organizer : Participant
  attendees : List Participant
  sequence : Nat
  created : Nat
  lastMod : Nat
deriving DecidableEq

/-- An attendee's reply to an invitation (struct `Response`). -/
structure Response where
  uid : GoStr
  attendee : Participant
  organizer : Participant
  status : GoStr
  comment : GoStr
  sequence : Nat
deriving DecidableEq

/-- Model of `parseParticipant`: strip the transport prefix case-insensitively (the
Go code drops the first seven bytes of the original value when the
lower-cased value starts with the prefix), then read display name,
participation status, and the RSVP flag from the parameters. -/
def parseParticipant (p : IProp) : Participant :=
  let email := if goHasPref (goToLower p.value) mailtoPre then p.value.drop 7 else p.value
  let name := if paramsGet p.params paramCN ≠ [] then paramsGet p.params paramCN else []
  let status := if paramsGet p.params paramPartStat ≠ [] then paramsGet p.params paramPartStat else []
  let rsvp := goToUpper (paramsGet p.params paramRSVP) == "TRUE".toList
  ⟨email, name, status, rsvp⟩

/-- The ORGANIZER property built identically by CreateInvite, CreateReply and
CreateCancel: a transport-prefixed address plus a CN parameter when the
display name is non-empty. -/
def mkOrganizerProp (o : Participant) : IProp :=
  let p : IProp := ⟨propOrganizer, [], mailtoPre ++ o.email⟩
  if o.name ≠ [] then { p with params := paramsSet p.params paramCN o.name } else p

/-- One ATTENDEE property of CreateInvite (part_002 lines 104-115): display
name when non-empty, participation status forced to NEEDS-ACTION, RSVP when
requested, and a REQ-PARTICIPANT role. -/
def mkInviteAttendeeProp (att : Participant) : IProp :=
  let params0 : List (String × GoStr) := []
  let params1 := if att.name ≠ [] then paramsSet params0 paramCN att.name else params0
  let params2 := paramsSet params1 paramPartStat ("NEEDS-ACTION".toList)
  let params3 := if att.rsvp then paramsSet params2 paramRSVP ("TRUE".toList) else params2
  let params4 := paramsSet params3 "ROLE" ("REQ-PARTICIPANT".toList)
  ⟨propAttendee, params4, mailtoPre ++ att.email⟩

/-- The VEVENT property list built by `CreateInvite` (part_002 lines 77-116):
identity, content, times, sequence, organizer, and the attendee loop — each
iteration calls `Props.Set`, which replaces any property of the same name,
modelled by a fold of `propsSet`. -/
def inviteCompProps (now : Nat) (inv : Invite) : IProps :=
  let ep := propsSetText [] propUID inv.uid
  let ep := propsSetText ep propSummary inv.summary
  let ep := propsSetDateTime ep propDateTimeStart inv.start
  let ep := propsSetDateTime ep propDateTimeEnd inv.end_
  let ep := propsSetDateTime ep propDateTimeStamp now
  let ep := propsSetDateTime ep propCreated inv.created
  let ep := propsSet ep ⟨propSequence, [], natToChars inv.sequence⟩
  let ep := if inv.description ≠ [] then propsSetText ep propDescription inv.description else ep
  let ep := if inv.location ≠ [] then propsSetText ep propLocation inv.location else ep
  let ep := propsSet ep (mkOrganizerProp inv.organizer)
  inv.attendees.foldl (fun acc att => propsSet acc (mkInviteAttendeeProp att)) ep

/-- Model of `CreateInvite` (part_002 lines 71-126): a document with method tag
REQUEST and one VEVENT component. -/
def CreateInvite (now : Nat) (inv : Invite) : ICalendar :=
  let cp := propsSetText (propsSetText (propsSetText [] propVersion ("2.0".toList))
      propProductID ("-//sog//sogcli//EN".toList)) propMethod ("REQUEST".toList)
  { props := cp, children := [⟨compEvent, inviteCompProps now inv⟩] }

/-- The single ATTENDEE property of CreateReply (part_002 lines 151-157),
carrying the response's participation status. -/
def mkReplyAttendeeProp (resp : Response) : IProp :=
  let params0 : List (String × GoStr) := []
  let params1 := if resp.attendee.name ≠ [] then paramsSet params0 paramCN resp.attendee.name else params0
  let params2 := paramsSet params1 paramPartStat resp.status
  ⟨propAttendee, params2, mailtoPre ++ resp.attendee.email⟩

/-- The VEVENT property list built by `CreateReply` (part_002 lines 135-161):
identifying fields only (UID, DTSTAMP, SEQUENCE), plus organizer, the single
responding attendee, and an optional comment — no summary, description,
location, start or end. -/
def replyCompProps (now : Nat) (resp : Response) : IProps :=
  let ep := propsSetText [] propUID resp.uid
  let ep := propsSetDateTime ep propDateTimeStamp now
  let ep := propsSet ep ⟨propSequence, [], natToChars resp.sequence⟩
  let ep := propsSet ep (mkOrganizerProp resp.organizer)
  let ep := propsSet ep (mkReplyAttendeeProp resp)
  if resp.comment ≠ [] then propsSetText ep propComment resp.comment else ep

/-- Model of `CreateReply` (part_002 lines 129-171): a document with method tag REPLY
and one VEVENT component. -/
def CreateReply (now : Nat) (resp : Response) : ICalendar :=
  let cp := propsSetText (propsSetText (propsSetText [] propVersion ("2.0".toList))
      propProductID ("-//sog//sogcli//EN".toList)) propMethod ("REPLY".toList)
  { props := cp, children := [⟨compEvent, replyCompProps now resp⟩] }

/-- The zero-valued Invite, as Go's `&Invite{}` initialises it. -/
def emptyInvite : Invite :=
  ⟨[], [], [], [], [], 0, 0, ⟨[], [], [], false⟩, [], 0, 0, 0⟩

/-- The method-tag extraction at the head of ParseInvite. -/
def calMethod (cal : ICalendar) : GoStr :=
  match propsGet cal.props propMethod with
  | some p => p.value
  | none => []

/-- Field extraction for the first VEVENT in `ParseInvite` (part_002 lines
234-283): identity, content, sequence via a `%d` scan, times, organizer and
every attendee through `parseParticipant`.  LAST-MODIFIED is never read. -/
def parseInviteEventProps (inv : Invite) (ps : IProps) : Invite :=
  let uid := match propsGet ps propUID with
    | some p => p.value
    | none => inv.uid
  let summary := match propsGet ps propSummary with
    | some p => p.value
    | none => inv.summary
  let description := match propsGet ps propDescription with
    | some p => p.value
    | none => inv.description
  let location := match propsGet ps propLocation with
    | some p => p.value
    | none => inv.location
  let sequence := match propsGet ps propSequence with
    | some p => sscanfNat p.value inv.sequence
    | none => inv.sequence
  let start := match propsGet ps propDateTimeStart with
    | some p =>
      match propDateTime p with
      | some t => t
      | none => inv.start
    | none => inv.start
  let endV := match propsGet ps propDateTimeEnd with
    | some p =>
      match propDateTime p with
      | some t => t
      | none => inv.end_
    | none => inv.end_
  let created := match propsGet ps propCreated with
    | some p =>
      match propDateTime p with
      | some t => t
      | none => inv.created
    | none => inv.created
  let organizer := match propsGet ps propOrganizer with
    | some p => parseParticipant p
    | none => inv.organizer
  let attendees := (propsValues ps propAttendee).map parseParticipant
  ⟨inv.method, uid, summary, description, location, start, endV, organizer,
    attendees, sequence, created, inv.lastMod⟩

/-- Model of `ParseInvite` (part_002 lines 219-286): decode the payload, read the
method tag, then populate the invite from the first VEVENT if one exists —
when no VEVENT is present the zero-valued invite (with only the method tag)
is returned without error. -/
def ParseInvite (data : ICalBytes) : Except String Invite :=
  match data with
  | .malformed => .error "failed to decode iCalendar"
  | .ok cal =>
    let inv := { emptyInvite with method := calMethod cal }
    match cal.children.find? (fun c => c.name == compEvent) with
    | some c => .ok (parseInviteEventProps inv c.props)
    | none => .ok inv

/-! ## Computation lemmas for the built property lists -/

/-- A sample event used to witness the round-trip theorems. -/
def sampleEvent : Event :=
  ⟨"uid-1".toList, "standup".toList, "daily".toList, "room 1".toList,
    86400, 90000, false, "boss@x.org".toList,
    ["a@x.org".toList, "b@x.org".toList], "CONFIRMED".toList, []⟩

/-- A concrete VEVENT property list with a start and a duration but no end,
used to witness C3. -/
def sampleDurProps : IProps :=
  [⟨propDateTimeStart, [], natToChars 1000⟩, ⟨propDurationName, [], natToChars 600⟩]

/-- A concrete invite whose attendee list has two members carrying
non-default participation statuses. -/
def sampleInvite : Invite :=
  ⟨[], "mtg-1".toList, "Planning".toList, [], [], 1000, 2000,
    ⟨"boss@x.org".toList, [], [], false⟩,
    [⟨"a@x.org".toList, [], "ACCEPTED".toList, true⟩,
     ⟨"b@x.org".toList, [], "DECLINED".toList, false⟩], 0, 10, 0⟩

/-- A VTODO document template carrying every property the task decoder
reads, with each fallible value supplied separately so any one of them can
be made malformed. -/
def taskDocProps (uid sm desc st cats priV pcV dueV sV cV : GoStr) : ICalendar :=
  ⟨[], [⟨compToDo,
    [⟨propUID, [], uid⟩, ⟨propSummary, [], sm⟩, ⟨propDescription, [], desc⟩,
     ⟨propStatus, [], st⟩, ⟨propPriority, [], priV⟩,
     ⟨propPercentComplete, [], pcV⟩, ⟨propDue, [], dueV⟩,
     ⟨propDateTimeStart, [], sV⟩, ⟨propCompleted, [], cV⟩,
     ⟨propCategories, [], cats⟩]⟩]⟩

/-! ## Theorems -/

theorem charDigit_digitChar {d : Nat} (h : d < 10) :
    charDigit (Nat.digitChar d) = d := by
  interval_cases d <;> rfl

theorem isDigit_digitChar {d : Nat} (h : d < 10) :
    (Nat.digitChar d).isDigit = true := by
  interval_cases d <;> rfl

theorem charsToNat?_natToChars (n : Nat) : charsToNat? (natToChars n) = some n := by
  by_cases h0 : n = 0
  · subst h0; rfl
  · have hne : Nat.digits 10 n ≠ [] := Nat.digits_ne_nil_iff_ne_zero.mpr h0
    have hlt : ∀ d ∈ Nat.digits 10 n, d < 10 := fun d hd =>
      Nat.digits_lt_base (by norm_num) hd
    unfold natToChars charsToNat?
    rw [if_neg h0]
    have hall : (((Nat.digits 10 n).map Nat.digitChar).reverse).all Char.isDigit = true := by
      rw [List.all_eq_true]
      intro c hc
      rw [List.mem_reverse, List.mem_map] at hc
      obtain ⟨d, hd, rfl⟩ := hc
      exact isDigit_digitChar (hlt d hd)
    have hnil : ((Nat.digits 10 n).map Nat.digitChar).reverse ≠ [] := by
      simp [hne]
    rw [if_pos ⟨hnil, hall⟩]
    have hmap : (((Nat.digits 10 n).map Nat.digitChar).reverse.map charDigit).reverse
        = Nat.digits 10 n := by
      rw [← List.map_reverse, List.reverse_reverse, List.map_map]
      have heq : (Nat.digits 10 n).map (charDigit ∘ Nat.digitChar)
          = (Nat.digits 10 n).map id := by
        apply List.map_congr_left
        intro d hd
        exact charDigit_digitChar (hlt d hd)
      rw [heq, List.map_id]
    rw [hmap]
    exact congrArg some (Nat.ofDigits_digits 10 n)

theorem takeWhile_isDigit_natToChars (n : Nat) :
    (natToChars n).takeWhile Char.isDigit = natToChars n := by
  apply List.takeWhile_eq_self_iff.mpr
  intro c hc
  by_cases h0 : n = 0
  · subst h0
    simp [natToChars] at hc
    subst hc; rfl
  · simp only [natToChars, if_neg h0, List.mem_reverse, List.mem_map] at hc
    obtain ⟨d, hd, rfl⟩ := hc
    exact isDigit_digitChar (Nat.digits_lt_base (by norm_num) hd)

theorem sscanfNat_natToChars (n old : Nat) : sscanfNat (natToChars n) old = n := by
  unfold sscanfNat
  rw [takeWhile_isDigit_natToChars, charsToNat?_natToChars]

theorem sscanfNat_none (v : GoStr) (old : Nat)
    (h : charsToNat? (v.takeWhile Char.isDigit) = none) : sscanfNat v old = old := by
  unfold sscanfNat
  rw [h]

theorem find?_filter_of_imp {α : Type} (l : List α) (p q : α → Bool)
    (h : ∀ x, p x = true → q x = true) :
    (l.filter q).find? p = l.find? p := by
  induction l with
  | nil => rfl
  | cons x xs ih =>
    by_cases hq : q x = true
    · by_cases hp : p x = true <;> simp [List.filter_cons, hp, hq, List.find?_cons, ih]
    · have hp : p x = false := by
        cases hpx : p x
        · rfl
        · exact absurd (h x hpx) (by simp [hq])
      simp [List.filter_cons, hp, hq, List.find?_cons, ih]

theorem filter_filter_of_imp {α : Type} (l : List α) (p q : α → Bool)
    (h : ∀ x, p x = true → q x = true) :
    (l.filter q).filter p = l.filter p := by
  induction l with
  | nil => rfl
  | cons x xs ih =>
    by_cases hq : q x = true
    · by_cases hp : p x = true <;> simp [List.filter_cons, hp, hq, ih]
    · have hp : p x = false := by
        cases hpx : p x
        · rfl
        · exact absurd (h x hpx) (by simp [hq])
      simp [List.filter_cons, hp, hq, ih]

theorem propsGet_nil (n : String) : propsGet [] n = none := rfl

theorem propsGet_set_self (ps : IProps) (p : IProp) :
    propsGet (propsSet ps p) p.name = some p := by
  unfold propsGet propsSet
  rw [List.find?_append]
  have hleft : (ps.filter (fun q => q.name ≠ p.name)).find?
      (fun q => q.name == p.name) = none := by
    rw [List.find?_eq_none]
    intro q hq
    have h2 := (List.mem_filter.mp hq).2
    simp only [ne_eq, decide_not, Bool.not_eq_eq_eq_not, Bool.not_true,
      decide_eq_false_iff_not] at h2
    simp [h2]
  rw [hleft]
  simp [List.find?]

theorem propsGet_set_ne (ps : IProps) (p : IProp) (n : String) (h : n ≠ p.name) :
    propsGet (propsSet ps p) n = propsGet ps n := by
  unfold propsGet propsSet
  rw [List.find?_append]
  have hb : (p.name == n) = false := by
    rw [beq_eq_false_iff_ne]
    exact fun hc => h hc.symm
  have hr : [p].find? (fun q => q.name == n) = none := by
    simp [List.find?, hb]
  rw [hr, Option.or_none]
  apply find?_filter_of_imp
  intro x hx
  simp only [beq_iff_eq] at hx
  simp [hx]
  exact h

theorem propsGet_add_ne (ps : IProps) (p : IProp) (n : String) (h : n ≠ p.name) :
    propsGet (propsAdd ps p) n = propsGet ps n := by
  unfold propsGet propsAdd
  rw [List.find?_append]
  have hb : (p.name == n) = false := by
    rw [beq_eq_false_iff_ne]
    exact fun hc => h hc.symm
  have hr : [p].find? (fun q => q.name == n) = none := by
    simp [List.find?, hb]
  rw [hr, Option.or_none]

theorem propsGet_append_ne (ps qs : IProps) (n : String)
    (h : ∀ q ∈ qs, q.name ≠ n) :
    propsGet (ps ++ qs) n = propsGet ps n := by
  unfold propsGet
  rw [List.find?_append]
  have hr : qs.find? (fun q => q.name == n) = none := by
    rw [List.find?_eq_none]
    intro q hq
    simpa using h q hq
  rw [hr, Option.or_none]

theorem propsValues_nil (n : String) : propsValues [] n = [] := rfl

theorem propsValues_set_ne (ps : IProps) (p : IProp) (n : String) (h : n ≠ p.name) :
    propsValues (propsSet ps p) n = propsValues ps n := by
  unfold propsValues propsSet
  rw [List.filter_append]
  have hb : (p.name == n) = false := by
    rw [beq_eq_false_iff_ne]
    exact fun hc => h hc.symm
  have hr : [p].filter (fun q => q.name == n) = [] := by
    simp [List.filter, hb]
  rw [hr, List.append_nil]
  apply filter_filter_of_imp
  intro x hx
  simp only [beq_iff_eq] at hx
  simp [hx]
  exact h

theorem propsValues_append (ps qs : IProps) (n : String) :
    propsValues (ps ++ qs) n = propsValues ps n ++ propsValues qs n := by
  unfold propsValues
  rw [List.filter_append]

theorem propsValues_self_list (vs : List IProp) (n : String)
    (h : ∀ v ∈ vs, v.name = n) :
    propsValues vs n = vs := by
  unfold propsValues
  rw [List.filter_eq_self]
  intro v hv
  simp [h v hv]

theorem propDateTime_setDateTime (n : String) (t : Nat) :
    propDateTime (propSetDateTime ⟨n, [], []⟩ t) = some t := by
  unfold propDateTime propSetDateTime
  rw [if_neg]
  · exact charsToNat?_natToChars t
  · simp [paramsGet, paramsSet, List.find?]

theorem propDateTime_setDate (n : String) (t : Nat) :
    propDateTime (propSetDate ⟨n, [], []⟩ t) = some (t / secPerDay * secPerDay) := by
  unfold propDateTime propSetDate
  rw [if_pos]
  · rw [charsToNat?_natToChars]
    rfl
  · simp [paramsGet, paramsSet, List.find?]

theorem paramsGet_setDate (n : String) (t : Nat) :
    paramsGet (propSetDate ⟨n, [], []⟩ t).params paramValue = "DATE".toList := by
  simp [propSetDate, paramsGet, paramsSet, List.find?]

theorem paramsGet_setDateTime (n : String) (t : Nat) :
    paramsGet (propSetDateTime ⟨n, [], []⟩ t).params paramValue = "DATE-TIME".toList := by
  simp [propSetDateTime, paramsGet, paramsSet, List.find?]

theorem propSetDate_name (p : IProp) (t : Nat) : (propSetDate p t).name = p.name := rfl

theorem propSetDateTime_name (p : IProp) (t : Nat) :
    (propSetDateTime p t).name = p.name := rfl

theorem propsGet_ite_set_ne {c : Prop} [Decidable c] (ps : IProps) (p : IProp)
    (n : String) (h : n ≠ p.name) :
    propsGet (if c then propsSet ps p else ps) n = propsGet ps n := by
  split
  · exact propsGet_set_ne ps p n h
  · rfl

theorem propsGet_ite_set2_ne {c : Prop} [Decidable c] (ps : IProps)
    (p1 p2 p3 p4 : IProp) (n : String) (h1 : n ≠ p1.name) (h2 : n ≠ p2.name)
    (h3 : n ≠ p3.name) (h4 : n ≠ p4.name) :
    propsGet (if c then propsSet (propsSet ps p1) p2 else propsSet (propsSet ps p3) p4) n
      = propsGet ps n := by
  split
  · rw [propsGet_set_ne _ _ _ h2, propsGet_set_ne _ _ _ h1]
  · rw [propsGet_set_ne _ _ _ h4, propsGet_set_ne _ _ _ h3]

theorem propsGet_ite_set2_fst {c : Prop} [Decidable c] (ps : IProps)
    (p1 p2 p3 p4 : IProp) (n : String) (h1 : p1.name = n) (h2 : n ≠ p2.name)
    (h3 : p3.name = n) (h4 : n ≠ p4.name) :
    propsGet (if c then propsSet (propsSet ps p1) p2 else propsSet (propsSet ps p3) p4) n
      = some (if c then p1 else p3) := by
  by_cases hc : c
  · rw [if_pos hc, if_pos hc, propsGet_set_ne _ _ _ h2, ← h1]
    exact propsGet_set_self _ _
  · rw [if_neg hc, if_neg hc, propsGet_set_ne _ _ _ h4, ← h3]
    exact propsGet_set_self _ _

theorem propsGet_ite_set2_snd {c : Prop} [Decidable c] (ps : IProps)
    (p1 p2 p3 p4 : IProp) (n : String) (h2 : p2.name = n) (h4 : p4.name = n) :
    propsGet (if c then propsSet (propsSet ps p1) p2 else propsSet (propsSet ps p3) p4) n
      = some (if c then p2 else p4) := by
  by_cases hc : c
  · rw [if_pos hc, if_pos hc, ← h2]
    exact propsGet_set_self _ _
  · rw [if_neg hc, if_neg hc, ← h4]
    exact propsGet_set_self _ _

theorem propsValues_ite_set_ne {c : Prop} [Decidable c] (ps : IProps) (p : IProp)
    (n : String) (h : n ≠ p.name) :
    propsValues (if c then propsSet ps p else ps) n = propsValues ps n := by
  split
  · exact propsValues_set_ne ps p n h
  · rfl

theorem propsValues_ite_set2_ne {c : Prop} [Decidable c] (ps : IProps)
    (p1 p2 p3 p4 : IProp) (n : String) (h1 : n ≠ p1.name) (h2 : n ≠ p2.name)
    (h3 : n ≠ p3.name) (h4 : n ≠ p4.name) :
    propsValues (if c then propsSet (propsSet ps p1) p2 else propsSet (propsSet ps p3) p4) n
      = propsValues ps n := by
  split
  · rw [propsValues_set_ne _ _ _ h2, propsValues_set_ne _ _ _ h1]
  · rw [propsValues_set_ne _ _ _ h4, propsValues_set_ne _ _ _ h3]

theorem attMap_names (as : List GoStr) :
    ∀ q ∈ as.map (fun a => (⟨propAttendee, [], mailtoPre ++ a⟩ : IProp)),
      q.name = propAttendee := by
  intro q hq
  obtain ⟨a, _, rfl⟩ := List.mem_map.mp hq
  rfl

theorem goTrimPref_mailto (a : GoStr) : goTrimPref (mailtoPre ++ a) mailtoPre = a := by
  unfold goTrimPref
  rw [if_pos]
  · exact List.drop_left mailtoPre a
  · exact List.isPrefixOf_iff_prefix.mpr ⟨a, rfl⟩

theorem ecp_uid (now : Nat) (e : Event) :
    propsGet (eventCompProps now e) propUID = some ⟨propUID, [], e.uid⟩ := by
  simp only [eventCompProps, propsSetText]
  rw [propsGet_set_ne _ _ _ (by simp +decide [propSetDate_name, propSetDateTime_name])]
  rw [propsGet_append_ne _ _ _ (fun q hq => by rw [attMap_names e.attendees q hq]; simp +decide)]
  rw [propsGet_ite_set_ne _ _ _ (by simp +decide [propSetDate_name, propSetDateTime_name])]
  rw [propsGet_ite_set2_ne _ _ _ _ _ _ (by simp +decide [propSetDate_name, propSetDateTime_name]) (by simp +decide [propSetDate_name, propSetDateTime_name]) (by simp +decide [propSetDate_name, propSetDateTime_name]) (by simp +decide [propSetDate_name, propSetDateTime_name])]
  rw [propsGet_ite_set_ne _ _ _ (by simp +decide [propSetDate_name, propSetDateTime_name])]
  rw [propsGet_ite_set_ne _ _ _ (by simp +decide [propSetDate_name, propSetDateTime_name])]
  rw [propsGet_ite_set_ne _ _ _ (by simp +decide [propSetDate_name, propSetDateTime_name])]
  rw [propsGet_ite_set_ne _ _ _ (by simp +decide [propSetDate_name, propSetDateTime_name])]
  rw [propsGet_set_ne _ _ _ (by simp +decide [propSetDate_name, propSetDateTime_name])]
  exact propsGet_set_self _ _

theorem ecp_summary (now : Nat) (e : Event) :
    propsGet (eventCompProps now e) propSummary = some ⟨propSummary, [], e.summary⟩ := by
  simp only [eventCompProps, propsSetText]
  rw [propsGet_set_ne _ _ _ (by simp +decide [propSetDate_name, propSetDateTime_name])]
  rw [propsGet_append_ne _ _ _ (fun q hq => by rw [attMap_names e.attendees q hq]; simp +decide)]
  rw [propsGet_ite_set_ne _ _ _ (by simp +decide [propSetDate_name, propSetDateTime_name])]
  rw [propsGet_ite_set2_ne _ _ _ _ _ _ (by simp +decide [propSetDate_name, propSetDateTime_name]) (by simp +decide [propSetDate_name, propSetDateTime_name]) (by simp +decide [propSetDate_name, propSetDateTime_name]) (by simp +decide [propSetDate_name, propSetDateTime_name])]
  rw [propsGet_ite_set_ne _ _ _ (by simp +decide [propSetDate_name, propSetDateTime_name])]
  rw [propsGet_ite_set_ne _ _ _ (by simp +decide [propSetDate_name, propSetDateTime_name])]
  rw [propsGet_ite_set_ne _ _ _ (by simp +decide [propSetDate_name, propSetDateTime_name])]
  rw [propsGet_ite_set_ne _ _ _ (by simp +decide [propSetDate_name, propSetDateTime_name])]
  exact propsGet_set_self _ _

theorem ecp_description (now : Nat) (e : Event) :
    propsGet (eventCompProps now e) propDescription
      = if e.description ≠ [] then some ⟨propDescription, [], e.description⟩ else none := by
  simp only [eventCompProps, propsSetText]
  rw [propsGet_set_ne _ _ _ (by simp +decide [propSetDate_name, propSetDateTime_name])]
  rw [propsGet_append_ne _ _ _ (fun q hq => by rw [attMap_names e.attendees q hq]; simp +decide)]
  rw [propsGet_ite_set_ne _ _ _ (by simp +decide [propSetDate_name, propSetDateTime_name])]
  rw [propsGet_ite_set2_ne _ _ _ _ _ _ (by simp +decide [propSetDate_name, propSetDateTime_name]) (by simp +decide [propSetDate_name, propSetDateTime_name]) (by simp +decide [propSetDate_name, propSetDateTime_name]) (by simp +decide [propSetDate_name, propSetDateTime_name])]
  rw [propsGet_ite_set_ne _ _ _ (by simp +decide [propSetDate_name, propSetDateTime_name])]
  rw [propsGet_ite_set_ne _ _ _ (by simp +decide [propSetDate_name, propSetDateTime_name])]
  rw [propsGet_ite_set_ne _ _ _ (by simp +decide [propSetDate_name, propSetDateTime_name])]
  split
  · exact propsGet_set_self _ _
  · rw [propsGet_set_ne _ _ _ (by simp +decide [propSetDate_name, propSetDateTime_name]), propsGet_set_ne _ _ _ (by simp +decide [propSetDate_name, propSetDateTime_name])]
    rfl

theorem ecp_location (now : Nat) (e : Event) :
    propsGet (eventCompProps now e) propLocation
      = if e.location ≠ [] then some ⟨propLocation, [], e.location⟩ else none := by
  simp only [eventCompProps, propsSetText]
  rw [propsGet_set_ne _ _ _ (by simp +decide [propSetDate_name, propSetDateTime_name])]
  rw [propsGet_append_ne _ _ _ (fun q hq => by rw [attMap_names e.attendees q hq]; simp +decide)]
  rw [propsGet_ite_set_ne _ _ _ (by simp +decide [propSetDate_name, propSetDateTime_name])]
  rw [propsGet_ite_set2_ne _ _ _ _ _ _ (by simp +decide [propSetDate_name, propSetDateTime_name]) (by simp +decide [propSetDate_name, propSetDateTime_name]) (by simp +decide [propSetDate_name, propSetDateTime_name]) (by simp +decide [propSetDate_name, propSetDateTime_name])]
  rw [propsGet_ite_set_ne _ _ _ (by simp +decide [propSetDate_name, propSetDateTime_name])]
  rw [propsGet_ite_set_ne _ _ _ (by simp +decide [propSetDate_name, propSetDateTime_name])]
  split
  · exact propsGet_set_self _ _
  · rw [propsGet_ite_set_ne _ _ _ (by simp +decide [propSetDate_name, propSetDateTime_name]), propsGet_set_ne _ _ _ (by simp +decide [propSetDate_name, propSetDateTime_name]),
      propsGet_set_ne _ _ _ (by simp +decide [propSetDate_name, propSetDateTime_name])]
    rfl

theorem ecp_organizer (now : Nat) (e : Event) :
    propsGet (eventCompProps now e) propOrganizer
      = if e.organizer ≠ [] then some ⟨propOrganizer, [], mailtoPre ++ e.organizer⟩
        else none := by
  simp only [eventCompProps, propsSetText]
  rw [propsGet_set_ne _ _ _ (by simp +decide [propSetDate_name, propSetDateTime_name])]
  rw [propsGet_append_ne _ _ _ (fun q hq => by rw [attMap_names e.attendees q hq]; simp +decide)]
  split
  · exact propsGet_set_self _ _
  · rw [propsGet_ite_set2_ne _ _ _ _ _ _ (by simp +decide [propSetDate_name, propSetDateTime_name]) (by simp +decide [propSetDate_name, propSetDateTime_name]) (by simp +decide [propSetDate_name, propSetDateTime_name]) (by simp +decide [propSetDate_name, propSetDateTime_name])]
    rw [propsGet_ite_set_ne _ _ _ (by simp +decide [propSetDate_name, propSetDateTime_name])]
    rw [propsGet_ite_set_ne _ _ _ (by simp +decide [propSetDate_name, propSetDateTime_name])]
    rw [propsGet_ite_set_ne _ _ _ (by simp +decide [propSetDate_name, propSetDateTime_name])]
    rw [propsGet_ite_set_ne _ _ _ (by simp +decide [propSetDate_name, propSetDateTime_name])]
    rw [propsGet_set_ne _ _ _ (by simp +decide [propSetDate_name, propSetDateTime_name]), propsGet_set_ne _ _ _ (by simp +decide [propSetDate_name, propSetDateTime_name])]
    rfl

theorem ecp_dtstart (now : Nat) (e : Event) :
    propsGet (eventCompProps now e) propDateTimeStart
      = some (if e.allDay then propSetDate ⟨propDateTimeStart, [], []⟩ e.start
          else propSetDateTime ⟨propDateTimeStart, [], []⟩ e.start) := by
  simp only [eventCompProps, propsSetText]
  rw [propsGet_set_ne _ _ _ (by simp +decide [propSetDate_name, propSetDateTime_name])]
  rw [propsGet_append_ne _ _ _ (fun q hq => by rw [attMap_names e.attendees q hq]; simp +decide)]
  rw [propsGet_ite_set_ne _ _ _ (by simp +decide [propSetDate_name, propSetDateTime_name])]
  exact propsGet_ite_set2_fst _ _ _ _ _ _ rfl (by simp +decide [propSetDate_name, propSetDateTime_name]) rfl (by simp +decide [propSetDate_name, propSetDateTime_name])

theorem ecp_dtend (now : Nat) (e : Event) :
    propsGet (eventCompProps now e) propDateTimeEnd
      = some (if e.allDay then propSetDate ⟨propDateTimeEnd, [], []⟩ e.end_
          else propSetDateTime ⟨propDateTimeEnd, [], []⟩ e.end_) := by
  simp only [eventCompProps, propsSetText]
  rw [propsGet_set_ne _ _ _ (by simp +decide [propSetDate_name, propSetDateTime_name])]
  rw [propsGet_append_ne _ _ _ (fun q hq => by rw [attMap_names e.attendees q hq]; simp +decide)]
  rw [propsGet_ite_set_ne _ _ _ (by simp +decide [propSetDate_name, propSetDateTime_name])]
  exact propsGet_ite_set2_snd _ _ _ _ _ _ rfl rfl

theorem ecp_attendees (now : Nat) (e : Event) :
    propsValues (eventCompProps now e) propAttendee
      = e.attendees.map (fun a => (⟨propAttendee, [], mailtoPre ++ a⟩ : IProp)) := by
  simp only [eventCompProps, propsSetText]
  rw [propsValues_set_ne _ _ _ (by simp +decide [propSetDate_name, propSetDateTime_name])]
  rw [propsValues_append]
  rw [propsValues_self_list _ _ (attMap_names e.attendees)]
  rw [propsValues_ite_set_ne _ _ _ (by simp +decide [propSetDate_name, propSetDateTime_name])]
  rw [propsValues_ite_set2_ne _ _ _ _ _ _ (by simp +decide [propSetDate_name, propSetDateTime_name]) (by simp +decide [propSetDate_name, propSetDateTime_name]) (by simp +decide [propSetDate_name, propSetDateTime_name]) (by simp +decide [propSetDate_name, propSetDateTime_name])]
  rw [propsValues_ite_set_ne _ _ _ (by simp +decide [propSetDate_name, propSetDateTime_name])]
  rw [propsValues_ite_set_ne _ _ _ (by simp +decide [propSetDate_name, propSetDateTime_name])]
  rw [propsValues_ite_set_ne _ _ _ (by simp +decide [propSetDate_name, propSetDateTime_name])]
  rw [propsValues_ite_set_ne _ _ _ (by simp +decide [propSetDate_name, propSetDateTime_name])]
  rw [propsValues_set_ne _ _ _ (by simp +decide [propSetDate_name, propSetDateTime_name]), propsValues_set_ne _ _ _ (by simp +decide [propSetDate_name, propSetDateTime_name])]
  rfl

theorem parse_create_event (now : Nat) (e : Event) :
    parseICalEvent (createICalEvent now e)
      = .ok (parseEventProps (eventCompProps now e)) := by
  unfold parseICalEvent createICalEvent
  simp [List.find?]

/-- C1: for every Event `e` (satisfying the data-model invariant that an
all-day event's start and end carry no time-of-day component), decoding the
document produced by encoding `e` reproduces `e`'s UID, title (summary),
description, location, start, end, all-day flag, organizer, and attendee
list exactly; the DTSTAMP creation-timestamp property is excluded from the
comparison. -/
theorem C1_event_roundtrip (now : Nat) (e : Event)
    (hinv : e.allDay = true → e.start % secPerDay = 0 ∧ e.end_ % secPerDay = 0) :
    ∃ e2, parseICalEvent (createICalEvent now e) = Except.ok e2 ∧
      e2.uid = e.uid ∧ e2.summary = e.summary ∧ e2.description = e.description ∧
      e2.location = e.location ∧ e2.start = e.start ∧ e2.end_ = e.end_ ∧
      e2.allDay = e.allDay ∧ e2.organizer = e.organizer ∧
      e2.attendees = e.attendees := by
  refine ⟨parseEventProps (eventCompProps now e), parse_create_event now e,
    ?_, ?_, ?_, ?_, ?_, ?_, ?_, ?_, ?_⟩
  · simp only [parseEventProps]
    rw [ecp_uid]
  · simp only [parseEventProps]
    rw [ecp_summary]
  · simp only [parseEventProps]
    rw [ecp_description]
    by_cases hd : e.description = [] <;> simp [hd]
  · simp only [parseEventProps]
    rw [ecp_location]
    by_cases hl : e.location = [] <;> simp [hl]
  · simp only [parseEventProps]
    rw [ecp_dtstart]
    by_cases ha : e.allDay
    · obtain ⟨hs, _⟩ := hinv ha
      simp [ha, propDateTime_setDate, Nat.div_mul_cancel (Nat.dvd_of_mod_eq_zero hs)]
    · simp [ha, propDateTime_setDateTime]
  · simp only [parseEventProps]
    rw [ecp_dtend]
    by_cases ha : e.allDay
    · obtain ⟨_, he⟩ := hinv ha
      simp [ha, propDateTime_setDate, Nat.div_mul_cancel (Nat.dvd_of_mod_eq_zero he)]
    · simp [ha, propDateTime_setDateTime]
  · simp only [parseEventProps]
    rw [ecp_dtstart]
    by_cases ha : e.allDay
    · simp [ha, paramsGet_setDate]
    · simp +decide [ha, paramsGet_setDateTime]
  · simp only [parseEventProps]
    rw [ecp_organizer]
    by_cases ho : e.organizer = [] <;> simp [ho, goTrimPref_mailto]
  · simp only [parseEventProps]
    rw [ecp_attendees, List.map_map]
    have hcomp : ((fun p : IProp => goTrimPref p.value mailtoPre) ∘ fun a =>
        (⟨propAttendee, [], mailtoPre ++ a⟩ : IProp)) = fun a => a := by
      funext a
      exact goTrimPref_mailto a
    rw [hcomp]
    exact List.map_id e.attendees

/-- Witness for C1 at a concrete event. -/
theorem C1_event_roundtrip_witness :
    (sampleEvent.allDay = true →
      sampleEvent.start % secPerDay = 0 ∧ sampleEvent.end_ % secPerDay = 0) ∧
    (∃ e2, parseICalEvent (createICalEvent 5 sampleEvent) = Except.ok e2 ∧
      e2.uid = sampleEvent.uid ∧ e2.summary = sampleEvent.summary ∧
      e2.description = sampleEvent.description ∧
      e2.location = sampleEvent.location ∧ e2.start = sampleEvent.start ∧
      e2.end_ = sampleEvent.end_ ∧ e2.allDay = sampleEvent.allDay ∧
      e2.organizer = sampleEvent.organizer ∧
      e2.attendees = sampleEvent.attendees) :=
  ⟨by decide, Sogcli.C1_event_roundtrip 5 sampleEvent (by decide)⟩

/-- C2: the event decoder sets the all-day flag if and only if the start
property carries the date-only value-type parameter (VALUE=DATE), never by
inspecting the time-of-day; consequently the all-day flag of any event —
including one whose instants fall on midnight — survives an encode/decode
round trip unchanged in both the true and the false case. -/
theorem C2_allday_value_param (now : Nat) (e : Event) (ps : IProps) :
    ((parseEventProps ps).allDay = true ↔
      ∃ p, propsGet ps propDateTimeStart = some p ∧
        paramsGet p.params paramValue = "DATE".toList) ∧
    (∃ e2, parseICalEvent (createICalEvent now e) = Except.ok e2 ∧
      e2.allDay = e.allDay) := by
  constructor
  · simp only [parseEventProps]
    cases hp : propsGet ps propDateTimeStart with
    | none => simp
    | some p => simp
  · refine ⟨parseEventProps (eventCompProps now e), parse_create_event now e, ?_⟩
    simp only [parseEventProps]
    rw [ecp_dtstart]
    by_cases ha : e.allDay
    · simp [ha, paramsGet_setDate]
    · simp +decide [ha, paramsGet_setDateTime]

/-- C3: on event decode, a start property plus a duration property with no
explicit end property yields end = start + duration (under the decoder's own
guard that the decoded start is not the zero instant); when an explicit end
property is present, the decoded end is determined by that property alone,
so a duration property has no effect. -/
theorem C3_duration_fallback (ps : IProps) :
    (∀ pS pD t d, propsGet ps propDateTimeStart = some pS →
      propDateTime pS = some t → t ≠ 0 →
      propsGet ps propDateTimeEnd = none →
      propsGet ps propDurationName = some pD →
      propDurationVal pD = some d →
      (parseEventProps ps).end_ = t + d) ∧
    (∀ pE, propsGet ps propDateTimeEnd = some pE →
      (parseEventProps ps).end_ = (propDateTime pE).getD 0) := by
  constructor
  · intro pS pD t d hS ht ht0 hE hD hd
    simp only [parseEventProps]
    rw [hS, hE, hD]
    simp [ht, hd, ht0]
  · intro pE hE
    simp only [parseEventProps]
    rw [hE]
    cases hpe : propDateTime pE <;> simp [hpe]

/-- Witness for C3 at a concrete property list. -/
theorem C3_duration_fallback_witness :
    propsGet sampleDurProps propDateTimeStart
        = some ⟨propDateTimeStart, [], natToChars 1000⟩ ∧
    propDateTime ⟨propDateTimeStart, [], natToChars 1000⟩ = some 1000 ∧
    (1000 : Nat) ≠ 0 ∧
    propsGet sampleDurProps propDateTimeEnd = none ∧
    propsGet sampleDurProps propDurationName
        = some ⟨propDurationName, [], natToChars 600⟩ ∧
    propDurationVal ⟨propDurationName, [], natToChars 600⟩ = some 600 ∧
    (parseEventProps sampleDurProps).end_ = 1000 + 600 := by
  have hst : propDateTime (⟨propDateTimeStart, [], natToChars 1000⟩ : IProp)
      = some 1000 := by
    unfold propDateTime
    rw [if_neg (by decide)]
    exact charsToNat?_natToChars 1000
  have hdur : propDurationVal (⟨propDurationName, [], natToChars 600⟩ : IProp)
      = some 600 := charsToNat?_natToChars 600
  refine ⟨by simp +decide [sampleDurProps, propsGet, List.find?, propDateTimeStart, propDateTimeEnd, propDurationName], hst, by decide,
    by simp +decide [sampleDurProps, propsGet, List.find?, propDateTimeStart, propDateTimeEnd, propDurationName],
    by simp +decide [sampleDurProps, propsGet, List.find?, propDateTimeStart, propDateTimeEnd, propDurationName], hdur, ?_⟩
  exact (Sogcli.C3_duration_fallback sampleDurProps).1
    ⟨propDateTimeStart, [], natToChars 1000⟩
    ⟨propDurationName, [], natToChars 600⟩ 1000 600
    (by simp +decide [sampleDurProps, propsGet, List.find?, propDateTimeStart, propDateTimeEnd, propDurationName]) hst (by decide)
    (by simp +decide [sampleDurProps, propsGet, List.find?, propDateTimeStart, propDateTimeEnd, propDurationName])
    (by simp +decide [sampleDurProps, propsGet, List.find?, propDateTimeStart, propDateTimeEnd, propDurationName]) hdur


theorem paramsGet_set_self (ps : List (String × GoStr)) (k : String) (v : GoStr) :
    paramsGet (paramsSet ps k v) k = v := by
  unfold paramsGet paramsSet
  rw [List.find?_append]
  have hleft : (ps.filter (fun p => p.1 ≠ k)).find? (fun p => p.1 == k) = none := by
    rw [List.find?_eq_none]
    intro p hp
    have h2 := (List.mem_filter.mp hp).2
    simp only [ne_eq, decide_not, Bool.not_eq_eq_eq_not, Bool.not_true,
      decide_eq_false_iff_not] at h2
    simp [h2]
  rw [hleft]
  simp [List.find?]

theorem paramsGet_set_ne (ps : List (String × GoStr)) (k k2 : String) (v : GoStr)
    (h : k2 ≠ k) :
    paramsGet (paramsSet ps k v) k2 = paramsGet ps k2 := by
  unfold paramsGet paramsSet
  rw [List.find?_append]
  have hb : (k == k2) = false := by
    rw [beq_eq_false_iff_ne]
    exact fun hc => h hc.symm
  have hr : [(k, v)].find? (fun p => p.1 == k2) = none := by
    simp [List.find?, hb]
  rw [hr, Option.or_none]
  have himp : ∀ x : String × GoStr, (x.1 == k2) = true → (decide (x.1 ≠ k)) = true := by
    intro x hx
    simp only [beq_iff_eq] at hx
    simp [hx]
    exact h
  rw [find?_filter_of_imp ps _ _ himp]

theorem paramsGet_ite_set_ne {c : Prop} [Decidable c]
    (ps : List (String × GoStr)) (k k2 : String) (v : GoStr) (h : k2 ≠ k) :
    paramsGet (if c then paramsSet ps k v else ps) k2 = paramsGet ps k2 := by
  split
  · exact paramsGet_set_ne ps k k2 v h
  · rfl

theorem propsValues_set_self (ps : IProps) (p : IProp) :
    propsValues (propsSet ps p) p.name = [p] := by
  unfold propsValues propsSet
  rw [List.filter_append]
  have hl : (ps.filter (fun q => q.name ≠ p.name)).filter
      (fun q => q.name == p.name) = [] := by
    rw [List.filter_eq_nil_iff]
    intro q hq
    have h2 := (List.mem_filter.mp hq).2
    simp only [ne_eq, decide_not, Bool.not_eq_eq_eq_not, Bool.not_true,
      decide_eq_false_iff_not] at h2
    simp [h2]
  rw [hl, List.nil_append]
  simp [List.filter]

theorem propsValues_foldl_set {α : Type} (f : α → IProp) (n : String)
    (hf : ∀ a, (f a).name = n) :
    ∀ (as : List α) (ps : IProps) (h : as ≠ []),
      propsValues (as.foldl (fun acc a => propsSet acc (f a)) ps) n
        = [f (as.getLast h)]
  | [], _, h => absurd rfl h
  | [a], ps, _ => by
    simp only [List.foldl_cons, List.foldl_nil, List.getLast_singleton]
    rw [← hf a]
    exact propsValues_set_self ps (f a)
  | a :: b :: tl, ps, _ => by
    rw [List.foldl_cons]
    rw [propsValues_foldl_set f n hf (b :: tl) _ (by simp)]
    simp [List.getLast]

theorem mailto_strip (a : GoStr) :
    (if goHasPref (goToLower (mailtoPre ++ a)) mailtoPre then (mailtoPre ++ a).drop 7
     else mailtoPre ++ a) = a := by
  rw [if_pos]
  · rw [show (7 : Nat) = mailtoPre.length from rfl]
    exact List.drop_left mailtoPre a
  · unfold goHasPref goToLower
    rw [List.map_append]
    have hm : List.map Char.toLower mailtoPre = mailtoPre := by decide
    rw [hm]
    exact List.isPrefixOf_iff_prefix.mpr ⟨_, rfl⟩

theorem parseParticipant_inviteAttendee (att : Participant) :
    parseParticipant (mkInviteAttendeeProp att)
      = ⟨att.email, att.name, "NEEDS-ACTION".toList, att.rsvp⟩ := by
  unfold parseParticipant mkInviteAttendeeProp
  simp only []
  rw [mailto_strip]
  by_cases hn : att.name = []
  · by_cases hr : att.rsvp = true
    · simp [hn, hr, paramsGet, paramsSet, List.find?, List.filter, paramCN,
        paramPartStat, paramRSVP, goToUpper]
    · simp [hn, hr, paramsGet, paramsSet, List.find?, List.filter, paramCN,
        paramPartStat, paramRSVP, goToUpper]
  · by_cases hr : att.rsvp = true
    · simp [hn, hr, paramsGet, paramsSet, List.find?, List.filter, paramCN,
        paramPartStat, paramRSVP, goToUpper]
    · simp [hn, hr, paramsGet, paramsSet, List.find?, List.filter, paramCN,
        paramPartStat, paramRSVP, goToUpper]


theorem mkOrganizerProp_name (o : Participant) :
    (mkOrganizerProp o).name = propOrganizer := by
  unfold mkOrganizerProp
  split <;> rfl

theorem mkOrganizerProp_value (o : Participant) :
    (mkOrganizerProp o).value = mailtoPre ++ o.email := by
  unfold mkOrganizerProp
  split <;> rfl

theorem mkReplyAttendeeProp_name (resp : Response) :
    (mkReplyAttendeeProp resp).name = propAttendee := rfl

theorem mkInviteAttendeeProp_name (att : Participant) :
    (mkInviteAttendeeProp att).name = propAttendee := rfl

theorem mkReplyAttendeeProp_partstat (resp : Response) :
    paramsGet (mkReplyAttendeeProp resp).params paramPartStat = resp.status := by
  unfold mkReplyAttendeeProp
  exact paramsGet_set_self _ _ _

theorem icp_attendees (now : Nat) (inv : Invite) (h : inv.attendees ≠ []) :
    propsValues (inviteCompProps now inv) propAttendee
      = [mkInviteAttendeeProp (inv.attendees.getLast h)] := by
  simp only [inviteCompProps, propsSetText, propsSetDateTime]
  exact propsValues_foldl_set mkInviteAttendeeProp propAttendee
    (fun a => rfl) inv.attendees _ h

theorem parseInvite_createInvite (now : Nat) (inv : Invite) :
    ParseInvite (ICalBytes.ok (CreateInvite now inv))
      = Except.ok (parseInviteEventProps
          { emptyInvite with method := calMethod (CreateInvite now inv) }
          (inviteCompProps now inv)) := by
  unfold ParseInvite CreateInvite
  simp [List.find?]

/-- C4 (code bug): the attendee loop of CreateInvite calls `Props.Set`,
which replaces the previously emitted property of the same name, so an
invite with two attendees is encoded with a single ATTENDEE property —
only the last attendee survives.  The surviving attendee does carry the
forced NEEDS-ACTION participation status, but the claim that every
attendee is emitted fails. -/
theorem C4_invite_attendee_dropped :
    sampleInvite.attendees.length = 2 ∧
    (CreateInvite 7 sampleInvite).children
      = [⟨compEvent, inviteCompProps 7 sampleInvite⟩] ∧
    (propsValues (inviteCompProps 7 sampleInvite) propAttendee).length = 1 ∧
    (∃ i, ParseInvite (ICalBytes.ok (CreateInvite 7 sampleInvite)) = Except.ok i ∧
      i.attendees = [⟨"b@x.org".toList, [], "NEEDS-ACTION".toList, false⟩] ∧
      i.attendees.length ≠ sampleInvite.attendees.length) := by
  have hv : propsValues (inviteCompProps 7 sampleInvite) propAttendee
      = [mkInviteAttendeeProp ⟨"b@x.org".toList, [], "DECLINED".toList, false⟩] := by
    rw [icp_attendees 7 sampleInvite (by decide)]
    rfl
  have hi : (parseInviteEventProps
      { emptyInvite with method := calMethod (CreateInvite 7 sampleInvite) }
      (inviteCompProps 7 sampleInvite)).attendees
      = [⟨"b@x.org".toList, [], "NEEDS-ACTION".toList, false⟩] := by
    simp only [parseInviteEventProps]
    rw [hv]
    simp only [List.map_cons, List.map_nil]
    rw [parseParticipant_inviteAttendee]
  refine ⟨rfl, rfl, ?_, ?_⟩
  · rw [hv]
    rfl
  · refine ⟨_, parseInvite_createInvite 7 sampleInvite, hi, ?_⟩
    rw [hi]
    decide

theorem parse_create_reply (now : Nat) (resp : Response) :
    parseICalEvent (CreateReply now resp)
      = Except.ok (parseEventProps (replyCompProps now resp)) := by
  unfold parseICalEvent CreateReply
  simp [List.find?]

theorem rcp_uid (now : Nat) (resp : Response) :
    propsGet (replyCompProps now resp) propUID = some ⟨propUID, [], resp.uid⟩ := by
  simp only [replyCompProps, propsSetText, propsSetDateTime]
  rw [propsGet_ite_set_ne _ _ _ (by simp +decide)]
  rw [propsGet_set_ne _ _ _ (by rw [mkReplyAttendeeProp_name]; decide)]
  rw [propsGet_set_ne _ _ _ (by rw [mkOrganizerProp_name]; decide)]
  rw [propsGet_set_ne _ _ _ (by simp +decide)]
  rw [propsGet_set_ne _ _ _ (by simp +decide [propSetDateTime_name])]
  exact propsGet_set_self _ _

theorem rcp_sequence (now : Nat) (resp : Response) :
    propsGet (replyCompProps now resp) propSequence
      = some ⟨propSequence, [], natToChars resp.sequence⟩ := by
  simp only [replyCompProps, propsSetText, propsSetDateTime]
  rw [propsGet_ite_set_ne _ _ _ (by simp +decide)]
  rw [propsGet_set_ne _ _ _ (by rw [mkReplyAttendeeProp_name]; decide)]
  rw [propsGet_set_ne _ _ _ (by rw [mkOrganizerProp_name]; decide)]
  exact propsGet_set_self _ _

theorem rcp_dtstamp (now : Nat) (resp : Response) :
    propsGet (replyCompProps now resp) propDateTimeStamp
      = some (propSetDateTime ⟨propDateTimeStamp, [], []⟩ now) := by
  simp only [replyCompProps, propsSetText, propsSetDateTime]
  rw [propsGet_ite_set_ne _ _ _ (by simp +decide)]
  rw [propsGet_set_ne _ _ _ (by rw [mkReplyAttendeeProp_name]; decide)]
  rw [propsGet_set_ne _ _ _ (by rw [mkOrganizerProp_name]; decide)]
  rw [propsGet_set_ne _ _ _ (by simp +decide)]
  exact propsGet_set_self _ _

theorem rcp_organizer (now : Nat) (resp : Response) :
    propsGet (replyCompProps now resp) propOrganizer
      = some (mkOrganizerProp resp.organizer) := by
  simp only [replyCompProps, propsSetText, propsSetDateTime]
  rw [propsGet_ite_set_ne _ _ _ (by simp +decide)]
  rw [propsGet_set_ne _ _ _ (by rw [mkReplyAttendeeProp_name]; decide)]
  rw [show propOrganizer = (mkOrganizerProp resp.organizer).name from
    (mkOrganizerProp_name resp.organizer).symm]
  exact propsGet_set_self _ _

theorem rcp_attendees (now : Nat) (resp : Response) :
    propsValues (replyCompProps now resp) propAttendee
      = [mkReplyAttendeeProp resp] := by
  simp only [replyCompProps, propsSetText, propsSetDateTime]
  rw [propsValues_ite_set_ne _ _ _ (by simp +decide)]
  rw [show propAttendee = (mkReplyAttendeeProp resp).name from rfl]
  exact propsValues_set_self _ _

theorem rcp_none (now : Nat) (resp : Response) (n : String)
    (h1 : n ≠ propComment) (h2 : n ≠ propAttendee) (h3 : n ≠ propOrganizer)
    (h4 : n ≠ propSequence) (h5 : n ≠ propDateTimeStamp) (h6 : n ≠ propUID) :
    propsGet (replyCompProps now resp) n = none := by
  simp only [replyCompProps, propsSetText, propsSetDateTime]
  rw [propsGet_ite_set_ne _ _ _ h1]
  rw [propsGet_set_ne _ _ _ (by rw [mkReplyAttendeeProp_name]; exact h2)]
  rw [propsGet_set_ne _ _ _ (by rw [mkOrganizerProp_name]; exact h3)]
  rw [propsGet_set_ne _ _ _ h4]
  rw [propsGet_set_ne _ _ _ (by rw [propSetDateTime_name]; exact h5)]
  rw [propsGet_set_ne _ _ _ h6]
  rfl

/-- C5: the reply encoder emits a document whose method tag is REPLY and
whose single event component carries only the identifying fields (UID,
sequence, timestamp) — no summary, description, location, start or end —
plus exactly one attendee property carrying the response participation
status and the organizer copied from the response; decoding that component
through the record mapper yields an event with empty title, description and
location. -/
theorem C5_reply_shape (now : Nat) (resp : Response) :
    propsGet (CreateReply now resp).props propMethod
      = some ⟨propMethod, [], "REPLY".toList⟩ ∧
    (CreateReply now resp).children = [⟨compEvent, replyCompProps now resp⟩] ∧
    propsGet (replyCompProps now resp) propUID = some ⟨propUID, [], resp.uid⟩ ∧
    propsGet (replyCompProps now resp) propSequence
      = some ⟨propSequence, [], natToChars resp.sequence⟩ ∧
    (propsGet (replyCompProps now resp) propDateTimeStamp).isSome = true ∧
    propsGet (replyCompProps now resp) propSummary = none ∧
    propsGet (replyCompProps now resp) propDescription = none ∧
    propsGet (replyCompProps now resp) propLocation = none ∧
    propsGet (replyCompProps now resp) propDateTimeStart = none ∧
    propsGet (replyCompProps now resp) propDateTimeEnd = none ∧
    propsValues (replyCompProps now resp) propAttendee = [mkReplyAttendeeProp resp] ∧
    paramsGet (mkReplyAttendeeProp resp).params paramPartStat = resp.status ∧
    (mkReplyAttendeeProp resp).value = mailtoPre ++ resp.attendee.email ∧
    propsGet (replyCompProps now resp) propOrganizer
      = some (mkOrganizerProp resp.organizer) ∧
    (mkOrganizerProp resp.organizer).value = mailtoPre ++ resp.organizer.email ∧
    (∃ ev, parseICalEvent (CreateReply now resp) = Except.ok ev ∧
      ev.summary = [] ∧ ev.description = [] ∧ ev.location = []) := by
  refine ⟨?_, rfl, rcp_uid now resp, rcp_sequence now resp, ?_, ?_, ?_, ?_, ?_, ?_,
    rcp_attendees now resp, mkReplyAttendeeProp_partstat resp, rfl,
    rcp_organizer now resp, mkOrganizerProp_value resp.organizer, ?_⟩
  · simp only [CreateReply, propsSetText]
    exact propsGet_set_self _ _
  · rw [rcp_dtstamp]
    rfl
  · exact rcp_none now resp propSummary (by decide) (by decide) (by decide)
      (by decide) (by decide) (by decide)
  · exact rcp_none now resp propDescription (by decide) (by decide) (by decide)
      (by decide) (by decide) (by decide)
  · exact rcp_none now resp propLocation (by decide) (by decide) (by decide)
      (by decide) (by decide) (by decide)
  · exact rcp_none now resp propDateTimeStart (by decide) (by decide) (by decide)
      (by decide) (by decide) (by decide)
  · exact rcp_none now resp propDateTimeEnd (by decide) (by decide) (by decide)
      (by decide) (by decide) (by decide)
  · refine ⟨parseEventProps (replyCompProps now resp), parse_create_reply now resp,
      ?_, ?_, ?_⟩
    · simp only [parseEventProps]
      rw [rcp_none now resp propSummary (by decide) (by decide) (by decide)
        (by decide) (by decide) (by decide)]
    · simp only [parseEventProps]
      rw [rcp_none now resp propDescription (by decide) (by decide) (by decide)
        (by decide) (by decide) (by decide)]
    · simp only [parseEventProps]
      rw [rcp_none now resp propLocation (by decide) (by decide) (by decide)
        (by decide) (by decide) (by decide)]


theorem parseParticipant_email (p : IProp) :
    (parseParticipant p).email
      = if goHasPref (goToLower p.value) mailtoPre then p.value.drop 7
        else p.value := rfl

theorem propDateTime_noParams (n : String) (v : GoStr) :
    propDateTime ⟨n, [], v⟩ = charsToNat? v := by
  unfold propDateTime
  rw [if_neg]
  simp [paramsGet, List.find?]

/-- C6 counterexample: a syntactically valid interchange document containing
no event component (a VTODO-only document) is decoded by ParseInvite without
error — it returns the zero-valued Invite rather than failing with a
no-matching-component error, refuting the claim as stated. -/
theorem C6_no_event_returns_ok :
    ParseInvite (ICalBytes.ok ⟨propsSetText [] propVersion ("2.0".toList),
      [⟨compToDo, []⟩]⟩) = Except.ok emptyInvite := rfl

/-- C6 amended: ParseInvite returns an error exactly when the payload cannot
be decoded at all; a syntactically valid document with no event component
yields, without error, an Invite carrying only the method tag with every
other field at its zero value; and a present event component always decodes
to ok, with any single malformed field (sequence, start, end, created) left
at its zero value rather than aborting the decode. -/
theorem C6_amended_parseInvite_errors (b : ICalBytes) :
    ((∃ i, ParseInvite b = Except.ok i) ↔ b ≠ ICalBytes.malformed) ∧
    (∀ cal, b = ICalBytes.ok cal →
      cal.children.find? (fun c => c.name == compEvent) = none →
      ParseInvite b = Except.ok { emptyInvite with method := calMethod cal }) ∧
    (∀ cal comp, b = ICalBytes.ok cal →
      cal.children.find? (fun c => c.name == compEvent) = some comp →
      ParseInvite b = Except.ok (parseInviteEventProps
        { emptyInvite with method := calMethod cal } comp.props) ∧
      (∀ p, propsGet comp.props propSequence = some p →
        charsToNat? (p.value.takeWhile Char.isDigit) = none →
        (parseInviteEventProps { emptyInvite with method := calMethod cal }
          comp.props).sequence = 0) ∧
      (∀ p, propsGet comp.props propDateTimeStart = some p →
        propDateTime p = none →
        (parseInviteEventProps { emptyInvite with method := calMethod cal }
          comp.props).start = 0) ∧
      (∀ p, propsGet comp.props propDateTimeEnd = some p →
        propDateTime p = none →
        (parseInviteEventProps { emptyInvite with method := calMethod cal }
          comp.props).end_ = 0) ∧
      (∀ p, propsGet comp.props propCreated = some p →
        propDateTime p = none →
        (parseInviteEventProps { emptyInvite with method := calMethod cal }
          comp.props).created = 0)) := by
  refine ⟨?_, ?_, ?_⟩
  · constructor
    · rintro ⟨i, hi⟩ rfl
      simp [ParseInvite] at hi
    · intro hb
      cases b with
      | malformed => exact absurd rfl hb
      | ok cal =>
        cases hf : cal.children.find? (fun c => c.name == compEvent) with
        | some c =>
          refine ⟨parseInviteEventProps
            { emptyInvite with method := calMethod cal } c.props, ?_⟩
          simp only [ParseInvite]
          rw [hf]
        | none =>
          refine ⟨{ emptyInvite with method := calMethod cal }, ?_⟩
          simp only [ParseInvite]
          rw [hf]
  · intro cal hcal hf
    subst hcal
    simp only [ParseInvite]
    rw [hf]
  · intro cal comp hcal hf
    subst hcal
    refine ⟨?_, ?_, ?_, ?_, ?_⟩
    · simp only [ParseInvite]
      rw [hf]
    · intro p hget hmal
      simp only [parseInviteEventProps]
      simp [hget, sscanfNat_none p.value _ hmal, emptyInvite]
    · intro p hget hmal
      simp only [parseInviteEventProps]
      simp [hget, hmal, emptyInvite]
    · intro p hget hmal
      simp only [parseInviteEventProps]
      simp [hget, hmal, emptyInvite]
    · intro p hget hmal
      simp only [parseInviteEventProps]
      simp [hget, hmal, emptyInvite]

/-- Witness for the amended C6: a no-event document decodes to the
method-only Invite, and an event component with a malformed SEQUENCE and a
malformed DTSTART decodes without error with both fields at zero. -/
theorem C6_amended_witness :
    (∃ i, ParseInvite (ICalBytes.ok ⟨[], [⟨compToDo, []⟩]⟩) = Except.ok i) ∧
    ParseInvite (ICalBytes.ok ⟨[], [⟨compToDo, []⟩]⟩)
      = Except.ok { emptyInvite with
          method := calMethod ⟨[], [⟨compToDo, []⟩]⟩ } ∧
    (ParseInvite (ICalBytes.ok ⟨[], [⟨compEvent,
        [⟨propSequence, [], "xx".toList⟩, ⟨propDateTimeStart, [], "yy".toList⟩]⟩]⟩)
      = Except.ok (parseInviteEventProps
          { emptyInvite with method := calMethod ⟨[], [⟨compEvent,
            [⟨propSequence, [], "xx".toList⟩,
             ⟨propDateTimeStart, [], "yy".toList⟩]⟩]⟩ }
          [⟨propSequence, [], "xx".toList⟩, ⟨propDateTimeStart, [], "yy".toList⟩]) ∧
     (parseInviteEventProps { emptyInvite with method := calMethod ⟨[], [⟨compEvent,
        [⟨propSequence, [], "xx".toList⟩,
         ⟨propDateTimeStart, [], "yy".toList⟩]⟩]⟩ }
        [⟨propSequence, [], "xx".toList⟩,
         ⟨propDateTimeStart, [], "yy".toList⟩]).sequence = 0 ∧
     (parseInviteEventProps { emptyInvite with method := calMethod ⟨[], [⟨compEvent,
        [⟨propSequence, [], "xx".toList⟩,
         ⟨propDateTimeStart, [], "yy".toList⟩]⟩]⟩ }
        [⟨propSequence, [], "xx".toList⟩,
         ⟨propDateTimeStart, [], "yy".toList⟩]).start = 0) :=
  ⟨(C6_amended_parseInvite_errors (ICalBytes.ok ⟨[], [⟨compToDo, []⟩]⟩)).1.mpr
      (by simp),
   (C6_amended_parseInvite_errors (ICalBytes.ok ⟨[], [⟨compToDo, []⟩]⟩)).2.1
      ⟨[], [⟨compToDo, []⟩]⟩ rfl (by decide),
   ((C6_amended_parseInvite_errors (ICalBytes.ok ⟨[], [⟨compEvent,
        [⟨propSequence, [], "xx".toList⟩,
         ⟨propDateTimeStart, [], "yy".toList⟩]⟩]⟩)).2.2
      ⟨[], [⟨compEvent, [⟨propSequence, [], "xx".toList⟩,
        ⟨propDateTimeStart, [], "yy".toList⟩]⟩]⟩
      ⟨compEvent, [⟨propSequence, [], "xx".toList⟩,
        ⟨propDateTimeStart, [], "yy".toList⟩]⟩ rfl (by decide)).1,
   ((C6_amended_parseInvite_errors (ICalBytes.ok ⟨[], [⟨compEvent,
        [⟨propSequence, [], "xx".toList⟩,
         ⟨propDateTimeStart, [], "yy".toList⟩]⟩]⟩)).2.2
      ⟨[], [⟨compEvent, [⟨propSequence, [], "xx".toList⟩,
        ⟨propDateTimeStart, [], "yy".toList⟩]⟩]⟩
      ⟨compEvent, [⟨propSequence, [], "xx".toList⟩,
        ⟨propDateTimeStart, [], "yy".toList⟩]⟩ rfl (by decide)).2.1
      ⟨propSequence, [], "xx".toList⟩ (by decide) (by decide),
   ((C6_amended_parseInvite_errors (ICalBytes.ok ⟨[], [⟨compEvent,
        [⟨propSequence, [], "xx".toList⟩,
         ⟨propDateTimeStart, [], "yy".toList⟩]⟩]⟩)).2.2
      ⟨[], [⟨compEvent, [⟨propSequence, [], "xx".toList⟩,
        ⟨propDateTimeStart, [], "yy".toList⟩]⟩]⟩
      ⟨compEvent, [⟨propSequence, [], "xx".toList⟩,
        ⟨propDateTimeStart, [], "yy".toList⟩]⟩ rfl (by decide)).2.2.1
      ⟨propDateTimeStart, [], "yy".toList⟩ (by decide) (by decide)⟩

/-- C7: an address without the transport prefix round-trips exactly through
the participant encoders (which prepend the lowercase prefix verbatim for
the organizer and for every attendee) and the decoders (parseParticipant
strips it case-insensitively; the event mapper trims the exact prefix). -/
theorem C7_address_roundtrip (a nm st : GoStr) (r : Bool)
    (h : goHasPref (goToLower a) mailtoPre = false) :
    (parseParticipant (mkOrganizerProp ⟨a, nm, st, r⟩)).email = a ∧
    (parseParticipant (mkInviteAttendeeProp ⟨a, nm, st, r⟩)).email = a ∧
    (parseParticipant ⟨propAttendee, [], mailtoPre ++ a⟩).email = a ∧
    goTrimPref (mailtoPre ++ a) mailtoPre = a := by
  refine ⟨?_, ?_, ?_, goTrimPref_mailto a⟩
  · rw [parseParticipant_email, mkOrganizerProp_value]
    exact mailto_strip a
  · rw [parseParticipant_email]
    exact mailto_strip a
  · rw [parseParticipant_email]
    exact mailto_strip a

/-- Witness for C7 at a concrete address. -/
theorem C7_address_roundtrip_witness :
    goHasPref (goToLower ("alice@x.org".toList)) mailtoPre = false ∧
    ((parseParticipant (mkOrganizerProp
        ⟨"alice@x.org".toList, [], [], false⟩)).email = "alice@x.org".toList ∧
     (parseParticipant (mkInviteAttendeeProp
        ⟨"alice@x.org".toList, [], [], false⟩)).email = "alice@x.org".toList ∧
     (parseParticipant ⟨propAttendee, [],
        mailtoPre ++ "alice@x.org".toList⟩).email = "alice@x.org".toList ∧
     goTrimPref (mailtoPre ++ "alice@x.org".toList) mailtoPre
        = "alice@x.org".toList) :=
  ⟨by decide, C7_address_roundtrip ("alice@x.org".toList) [] [] false (by decide)⟩

/-- C8: field-level parse failures on task decode are always non-fatal.
For any document whose first VTODO component is present the decode succeeds;
in any component, a malformed date/time value (DUE, DTSTART, COMPLETED) or a
malformed integer value (PRIORITY, PERCENT-COMPLETE) leaves exactly that
field at its zero value; and on a full well-formed VTODO template with any
one of those five properties malformed, every other field is populated. -/
theorem C8_malformed_field_tolerated
    (uid sm desc st cats rawD rawI : GoStr) (pr pc s c d : Nat) (ps : IProps)
    (hdt : charsToNat? rawD = none)
    (hint : charsToNat? (rawI.takeWhile Char.isDigit) = none) :
    (∀ cal comp, cal.children.find? (fun x => x.name == compToDo) = some comp →
      parseICalTask cal = Except.ok (parseTaskProps comp.props)) ∧
    (∀ p, propsGet ps propDue = some p → propDateTime p = none →
      (parseTaskProps ps).due = 0) ∧
    (∀ p, propsGet ps propDateTimeStart = some p → propDateTime p = none →
      (parseTaskProps ps).start = 0) ∧
    (∀ p, propsGet ps propCompleted = some p → propDateTime p = none →
      (parseTaskProps ps).completed = 0) ∧
    (∀ p, propsGet ps propPriority = some p →
      charsToNat? (p.value.takeWhile Char.isDigit) = none →
      (parseTaskProps ps).priority = 0) ∧
    (∀ p, propsGet ps propPercentComplete = some p →
      charsToNat? (p.value.takeWhile Char.isDigit) = none →
      (parseTaskProps ps).percent = 0) ∧
    parseICalTask (taskDocProps uid sm desc st cats (natToChars pr)
        (natToChars pc) rawD (natToChars s) (natToChars c))
      = Except.ok ⟨uid, sm, desc, 0, s, c, st, pr, pc, goSplitComma cats⟩ ∧
    parseICalTask (taskDocProps uid sm desc st cats (natToChars pr)
        (natToChars pc) (natToChars d) rawD (natToChars c))
      = Except.ok ⟨uid, sm, desc, d, 0, c, st, pr, pc, goSplitComma cats⟩ ∧
    parseICalTask (taskDocProps uid sm desc st cats (natToChars pr)
        (natToChars pc) (natToChars d) (natToChars s) rawD)
      = Except.ok ⟨uid, sm, desc, d, s, 0, st, pr, pc, goSplitComma cats⟩ ∧
    parseICalTask (taskDocProps uid sm desc st cats rawI (natToChars pc)
        (natToChars d) (natToChars s) (natToChars c))
      = Except.ok ⟨uid, sm, desc, d, s, c, st, 0, pc, goSplitComma cats⟩ ∧
    parseICalTask (taskDocProps uid sm desc st cats (natToChars pr) rawI
        (natToChars d) (natToChars s) (natToChars c))
      = Except.ok ⟨uid, sm, desc, d, s, c, st, pr, 0, goSplitComma cats⟩ := by
  have hSI : sscanfNat rawI 0 = 0 := sscanfNat_none rawI 0 hint
  refine ⟨?_, ?_, ?_, ?_, ?_, ?_, ?_, ?_, ?_, ?_, ?_⟩
  · intro cal comp hfind
    unfold parseICalTask
    rw [hfind]
  · intro p hget hmal
    simp only [parseTaskProps]
    simp [hget, hmal]
  · intro p hget hmal
    simp only [parseTaskProps]
    simp [hget, hmal]
  · intro p hget hmal
    simp only [parseTaskProps]
    simp [hget, hmal]
  · intro p hget hmal
    simp only [parseTaskProps]
    simp [hget, sscanfNat_none p.value 0 hmal]
  · intro p hget hmal
    simp only [parseTaskProps]
    simp [hget, sscanfNat_none p.value 0 hmal]
  · unfold parseICalTask taskDocProps
    simp only [List.find?, compToDo]
    rw [show (("VTODO" : String) == "VTODO") = true from rfl]
    simp only [parseTaskProps]
    simp [propsGet, List.find?, propUID, propSummary, propDescription, propStatus,
      propPriority, propPercentComplete, propDue, propDateTimeStart, propCompleted,
      propCategories, propDateTime_noParams, hdt, charsToNat?_natToChars,
      sscanfNat_natToChars]
  · unfold parseICalTask taskDocProps
    simp only [List.find?, compToDo]
    rw [show (("VTODO" : String) == "VTODO") = true from rfl]
    simp only [parseTaskProps]
    simp [propsGet, List.find?, propUID, propSummary, propDescription, propStatus,
      propPriority, propPercentComplete, propDue, propDateTimeStart, propCompleted,
      propCategories, propDateTime_noParams, hdt, charsToNat?_natToChars,
      sscanfNat_natToChars]
  · unfold parseICalTask taskDocProps
    simp only [List.find?, compToDo]
    rw [show (("VTODO" : String) == "VTODO") = true from rfl]
    simp only [parseTaskProps]
    simp [propsGet, List.find?, propUID, propSummary, propDescription, propStatus,
      propPriority, propPercentComplete, propDue, propDateTimeStart, propCompleted,
      propCategories, propDateTime_noParams, hdt, charsToNat?_natToChars,
      sscanfNat_natToChars]
  · unfold parseICalTask taskDocProps
    simp only [List.find?, compToDo]
    rw [show (("VTODO" : String) == "VTODO") = true from rfl]
    simp only [parseTaskProps]
    simp [propsGet, List.find?, propUID, propSummary, propDescription, propStatus,
      propPriority, propPercentComplete, propDue, propDateTimeStart, propCompleted,
      propCategories, propDateTime_noParams, hSI, charsToNat?_natToChars,
      sscanfNat_natToChars]
  · unfold parseICalTask taskDocProps
    simp only [List.find?, compToDo]
    rw [show (("VTODO" : String) == "VTODO") = true from rfl]
    simp only [parseTaskProps]
    simp [propsGet, List.find?, propUID, propSummary, propDescription, propStatus,
      propPriority, propPercentComplete, propDue, propDateTimeStart, propCompleted,
      propCategories, propDateTime_noParams, hSI, charsToNat?_natToChars,
      sscanfNat_natToChars]

/-- Witness for C8: the malformed value "garbage" fails both the date/time
parse and the integer scan; a VTODO with a garbage DUE decodes with due 0 and
everything else populated, and one with a garbage PRIORITY decodes with
priority 0 and everything else populated. -/
theorem C8_malformed_field_witness :
    charsToNat? ("garbage".toList) = none ∧
    charsToNat? (("garbage".toList).takeWhile Char.isDigit) = none ∧
    parseICalTask (taskDocProps ("t1".toList) ("Buy".toList) ("milk".toList)
        ("IN-PROCESS".toList) ("home".toList) (natToChars 2) (natToChars 40)
        ("garbage".toList) (natToChars 500) (natToChars 900))
      = Except.ok ⟨"t1".toList, "Buy".toList, "milk".toList, 0, 500, 900,
          "IN-PROCESS".toList, 2, 40, goSplitComma ("home".toList)⟩ ∧
    parseICalTask (taskDocProps ("t1".toList) ("Buy".toList) ("milk".toList)
        ("IN-PROCESS".toList) ("home".toList) ("garbage".toList) (natToChars 40)
        (natToChars 300) (natToChars 500) (natToChars 900))
      = Except.ok ⟨"t1".toList, "Buy".toList, "milk".toList, 300, 500, 900,
          "IN-PROCESS".toList, 0, 40, goSplitComma ("home".toList)⟩ :=
  ⟨by decide, by decide,
   (C8_malformed_field_tolerated ("t1".toList) ("Buy".toList) ("milk".toList)
      ("IN-PROCESS".toList) ("home".toList) ("garbage".toList) ("garbage".toList)
      2 40 500 900 300 [] (by decide) (by decide)).2.2.2.2.2.2.1,
   (C8_malformed_field_tolerated ("t1".toList) ("Buy".toList) ("milk".toList)
      ("IN-PROCESS".toList) ("home".toList) ("garbage".toList) ("garbage".toList)
      2 40 500 900 300 [] (by decide) (by decide)).2.2.2.2.2.2.2.2.2.1⟩

theorem parse_create_task (now : Nat) (t : Task) :
    parseICalTask (createICalTask now t)
      = Except.ok (parseTaskProps (taskCompProps now t)) := by
  unfold parseICalTask createICalTask
  simp [List.find?]

theorem tcp_status (now : Nat) (t : Task) :
    propsGet (taskCompProps now t) propStatus
      = if t.status ≠ [] then some ⟨propStatus, [], t.status⟩ else none := by
  simp only [taskCompProps, propsSetText]
  rw [propsGet_set_ne _ _ _ (by rw [propSetDateTime_name]; decide)]
  rw [propsGet_ite_set_ne _ _ _ (by simp +decide)]
  rw [propsGet_ite_set_ne _ _ _ (by rw [propSetDateTime_name]; decide)]
  rw [propsGet_ite_set_ne _ _ _ (by rw [propSetDateTime_name]; decide)]
  rw [propsGet_ite_set_ne _ _ _ (by rw [propSetDateTime_name]; decide)]
  rw [propsGet_ite_set_ne _ _ _ (by simp +decide)]
  rw [propsGet_ite_set_ne _ _ _ (by simp +decide)]
  split
  · exact propsGet_set_self _ _
  · rw [propsGet_ite_set_ne _ _ _ (by simp +decide)]
    rw [propsGet_set_ne _ _ _ (by simp +decide)]
    rw [propsGet_set_ne _ _ _ (by simp +decide)]
    rfl

theorem tcp_percent (now : Nat) (t : Task) :
    propsGet (taskCompProps now t) propPercentComplete
      = if t.percent > 0 then some ⟨propPercentComplete, [], natToChars t.percent⟩
        else none := by
  simp only [taskCompProps, propsSetText]
  rw [propsGet_set_ne _ _ _ (by rw [propSetDateTime_name]; decide)]
  rw [propsGet_ite_set_ne _ _ _ (by simp +decide)]
  rw [propsGet_ite_set_ne _ _ _ (by rw [propSetDateTime_name]; decide)]
  rw [propsGet_ite_set_ne _ _ _ (by rw [propSetDateTime_name]; decide)]
  rw [propsGet_ite_set_ne _ _ _ (by rw [propSetDateTime_name]; decide)]
  split
  · exact propsGet_set_self _ _
  · rw [propsGet_ite_set_ne _ _ _ (by simp +decide)]
    rw [propsGet_ite_set_ne _ _ _ (by simp +decide)]
    rw [propsGet_ite_set_ne _ _ _ (by simp +decide)]
    rw [propsGet_set_ne _ _ _ (by simp +decide)]
    rw [propsGet_set_ne _ _ _ (by simp +decide)]
    rfl

theorem tcp_completed (now : Nat) (t : Task) :
    propsGet (taskCompProps now t) propCompleted
      = if t.completed ≠ 0 then
          some (propSetDateTime ⟨propCompleted, [], []⟩ t.completed)
        else none := by
  simp only [taskCompProps, propsSetText]
  rw [propsGet_set_ne _ _ _ (by rw [propSetDateTime_name]; decide)]
  rw [propsGet_ite_set_ne _ _ _ (by simp +decide)]
  split
  · rw [show propCompleted
        = (propSetDateTime (⟨propCompleted, [], []⟩ : IProp) t.completed).name from rfl]
    exact propsGet_set_self _ _
  · rw [propsGet_ite_set_ne _ _ _ (by rw [propSetDateTime_name]; decide)]
    rw [propsGet_ite_set_ne _ _ _ (by rw [propSetDateTime_name]; decide)]
    rw [propsGet_ite_set_ne _ _ _ (by simp +decide)]
    rw [propsGet_ite_set_ne _ _ _ (by simp +decide)]
    rw [propsGet_ite_set_ne _ _ _ (by simp +decide)]
    rw [propsGet_ite_set_ne _ _ _ (by simp +decide)]
    rw [propsGet_set_ne _ _ _ (by simp +decide)]
    rw [propsGet_set_ne _ _ _ (by simp +decide)]
    rfl

theorem tcp_categories (now : Nat) (t : Task) :
    propsGet (taskCompProps now t) propCategories
      = if t.categories ≠ [] then
          some ⟨propCategories, [], goJoinComma t.categories⟩
        else none := by
  simp only [taskCompProps, propsSetText]
  rw [propsGet_set_ne _ _ _ (by rw [propSetDateTime_name]; decide)]
  by_cases hc : t.categories ≠ []
  · rw [if_pos hc, if_pos hc]
    exact propsGet_set_self _ _
  · rw [if_neg hc, if_neg hc]
    rw [propsGet_ite_set_ne _ _ _ (by rw [propSetDateTime_name]; decide)]
    rw [propsGet_ite_set_ne _ _ _ (by rw [propSetDateTime_name]; decide)]
    rw [propsGet_ite_set_ne _ _ _ (by rw [propSetDateTime_name]; decide)]
    rw [propsGet_ite_set_ne _ _ _ (by simp +decide)]
    rw [propsGet_ite_set_ne _ _ _ (by simp +decide)]
    rw [propsGet_ite_set_ne _ _ _ (by simp +decide)]
    rw [propsGet_ite_set_ne _ _ _ (by simp +decide)]
    rw [propsGet_set_ne _ _ _ (by simp +decide)]
    rw [propsGet_set_ne _ _ _ (by simp +decide)]
    rfl

/-- C9: the completion commands establish the task-consistency invariant
(CompleteTask sets status COMPLETED, percent 100 and the completion instant
together; UncompleteTask resets status to NEEDS-ACTION and clears both
together), and the mapper's encode/decode passes status, percent-complete
and the completion instant through unchanged — it never coerces them. -/
theorem C9_completion_invariant (now now2 : Nat) (t : Task) (h : t.status ≠ []) :
    ((completeTaskRecord now t).status = "COMPLETED".toList ∧
     (completeTaskRecord now t).percent = 100 ∧
     (completeTaskRecord now t).completed = now) ∧
    ((uncompleteTaskRecord t).status = "NEEDS-ACTION".toList ∧
     (uncompleteTaskRecord t).percent = 0 ∧
     (uncompleteTaskRecord t).completed = 0) ∧
    (∃ t2, parseICalTask (createICalTask now2 t) = Except.ok t2 ∧
      t2.status = t.status ∧ t2.percent = t.percent ∧
      t2.completed = t.completed) := by
  refine ⟨⟨rfl, rfl, rfl⟩, ⟨rfl, rfl, rfl⟩,
    parseTaskProps (taskCompProps now2 t), parse_create_task now2 t, ?_, ?_, ?_⟩
  · simp only [parseTaskProps]
    rw [tcp_status, if_pos h]
  · simp only [parseTaskProps]
    rw [tcp_percent]
    by_cases hp : t.percent > 0
    · simp [hp, sscanfNat_natToChars]
    · simp [hp]
      omega
  · simp only [parseTaskProps]
    rw [tcp_completed]
    by_cases hc : t.completed ≠ 0
    · simp [hc, propDateTime_setDateTime]
    · simp [hc]
      omega

/-- Witness for C9 at a concrete task. -/
theorem C9_completion_invariant_witness :
    (("IN-PROCESS".toList : GoStr) ≠ []) ∧
    (((completeTaskRecord 50 ⟨"t1".toList, "Buy".toList, [], 0, 0, 0,
        "IN-PROCESS".toList, 0, 40, []⟩).status = "COMPLETED".toList ∧
      (completeTaskRecord 50 ⟨"t1".toList, "Buy".toList, [], 0, 0, 0,
        "IN-PROCESS".toList, 0, 40, []⟩).percent = 100 ∧
      (completeTaskRecord 50 ⟨"t1".toList, "Buy".toList, [], 0, 0, 0,
        "IN-PROCESS".toList, 0, 40, []⟩).completed = 50) ∧
     ((uncompleteTaskRecord ⟨"t1".toList, "Buy".toList, [], 0, 0, 0,
        "IN-PROCESS".toList, 0, 40, []⟩).status = "NEEDS-ACTION".toList ∧
      (uncompleteTaskRecord ⟨"t1".toList, "Buy".toList, [], 0, 0, 0,
        "IN-PROCESS".toList, 0, 40, []⟩).percent = 0 ∧
      (uncompleteTaskRecord ⟨"t1".toList, "Buy".toList, [], 0, 0, 0,
        "IN-PROCESS".toList, 0, 40, []⟩).completed = 0) ∧
     (∃ t2, parseICalTask (createICalTask 9 ⟨"t1".toList, "Buy".toList, [], 0, 0, 0,
        "IN-PROCESS".toList, 0, 40, []⟩) = Except.ok t2 ∧
       t2.status = (⟨"t1".toList, "Buy".toList, [], 0, 0, 0,
        "IN-PROCESS".toList, 0, 40, []⟩ : Task).status ∧
       t2.percent = (⟨"t1".toList, "Buy".toList, [], 0, 0, 0,
        "IN-PROCESS".toList, 0, 40, []⟩ : Task).percent ∧
       t2.completed = (⟨"t1".toList, "Buy".toList, [], 0, 0, 0,
        "IN-PROCESS".toList, 0, 40, []⟩ : Task).completed)) :=
  ⟨by decide, C9_completion_invariant 50 9 ⟨"t1".toList, "Buy".toList, [], 0, 0, 0,
      "IN-PROCESS".toList, 0, 40, []⟩ (by decide)⟩


theorem goSplitComma_no_comma (x : GoStr) (h : ',' ∉ x) : goSplitComma x = [x] := by
  induction x with
  | nil => rfl
  | cons c cs ih =>
    have hc : ¬(c = ',') := fun hh => h (hh ▸ List.mem_cons_self c cs)
    rw [goSplitComma, if_neg hc, ih (fun hm => h (List.mem_cons_of_mem c hm))]

theorem goSplitComma_append_comma (x r : GoStr) (h : ',' ∉ x) :
    goSplitComma (x ++ ',' :: r) = x :: goSplitComma r := by
  induction x with
  | nil =>
    rw [List.nil_append, goSplitComma, if_pos rfl]
  | cons c cs ih =>
    have hc : ¬(c = ',') := fun hh => h (hh ▸ List.mem_cons_self c cs)
    rw [List.cons_append, goSplitComma, if_neg hc,
      ih (fun hm => h (List.mem_cons_of_mem c hm))]

theorem goSplitComma_goJoinComma (l : List GoStr) (hne : l ≠ [])
    (h : ∀ x ∈ l, ',' ∉ x) : goSplitComma (goJoinComma l) = l := by
  induction l with
  | nil => exact absurd rfl hne
  | cons x xs ih =>
    cases xs with
    | nil =>
      rw [show goJoinComma [x] = x from rfl]
      exact goSplitComma_no_comma x (h x (List.mem_cons_self x []))
    | cons y tl =>
      rw [show goJoinComma (x :: y :: tl) = x ++ ',' :: goJoinComma (y :: tl) from rfl]
      rw [goSplitComma_append_comma x _ (h x (List.mem_cons_self x (y :: tl)))]
      rw [ih (by simp) (fun z hz => h z (List.mem_cons_of_mem x hz))]

theorem goSplitComma_ne_nil (x : GoStr) : goSplitComma x ≠ [] := by
  induction x with
  | nil => simp [goSplitComma]
  | cons c cs ih =>
    rw [goSplitComma]
    split
    · simp
    · cases hsp : goSplitComma cs with
      | nil => exact absurd hsp ih
      | cons r rs => simp [hsp]

theorem goSplitComma_comma_length (x : GoStr) (h : ',' ∈ x) :
    2 ≤ (goSplitComma x).length := by
  induction x with
  | nil => cases h
  | cons c cs ih =>
    by_cases hc : c = ','
    · subst hc
      rw [goSplitComma, if_pos rfl]
      have h1 : 1 ≤ (goSplitComma cs).length :=
        List.length_pos.mpr (goSplitComma_ne_nil cs)
      simp only [List.length_cons]
      omega
    · have hm : ',' ∈ cs := by
        cases h with
        | head => exact absurd rfl hc
        | tail _ hmem => exact hmem
      rw [goSplitComma, if_neg hc]
      cases hsp : goSplitComma cs with
      | nil => exact absurd hsp (goSplitComma_ne_nil cs)
      | cons r rs =>
        have h2 := ih hm
        rw [hsp] at h2
        simp only [List.length_cons] at h2 ⊢
        omega

/-- C10: task category tags are joined with commas on encode and split on
commas on decode; a non-empty tag list in which no tag contains a comma
round-trips exactly, while a tag containing a comma comes back as two or
more tags. -/
theorem C10_categories_roundtrip (now : Nat) (t : Task)
    (hne : t.categories ≠ []) (hnc : ∀ x ∈ t.categories, ',' ∉ x) :
    (∃ t2, parseICalTask (createICalTask now t) = Except.ok t2 ∧
      t2.categories = t.categories) ∧
    (∀ now3 uid x, ',' ∈ x →
      ∃ t3, parseICalTask (createICalTask now3
          ⟨uid, [], [], 0, 0, 0, [], 0, 0, [x]⟩) = Except.ok t3 ∧
        t3.categories = goSplitComma x ∧ 2 ≤ t3.categories.length) := by
  constructor
  · refine ⟨parseTaskProps (taskCompProps now t), parse_create_task now t, ?_⟩
    simp only [parseTaskProps]
    rw [tcp_categories, if_pos hne]
    exact goSplitComma_goJoinComma t.categories hne hnc
  · intro now3 uid x hx
    refine ⟨parseTaskProps (taskCompProps now3 ⟨uid, [], [], 0, 0, 0, [], 0, 0, [x]⟩),
      parse_create_task now3 _, ?_, ?_⟩
    · simp only [parseTaskProps]
      rw [tcp_categories, if_pos (by simp)]
      rw [show goJoinComma [x] = x from rfl]
    · simp only [parseTaskProps]
      rw [tcp_categories, if_pos (by simp)]
      rw [show goJoinComma [x] = x from rfl]
      exact goSplitComma_comma_length x hx

/-- Witness for C10 at a concrete category list and a concrete comma tag. -/
theorem C10_categories_roundtrip_witness :
    ((["home".toList, "work".toList] : List GoStr) ≠ []) ∧
    (∀ x ∈ (["home".toList, "work".toList] : List GoStr), ',' ∉ x) ∧
    ((∃ t2, parseICalTask (createICalTask 9
        ⟨"t1".toList, "Buy".toList, [], 0, 0, 0, [], 0, 0,
          ["home".toList, "work".toList]⟩) = Except.ok t2 ∧
      t2.categories = ["home".toList, "work".toList]) ∧
     (∀ now3 uid x, ',' ∈ x →
      ∃ t3, parseICalTask (createICalTask now3
          ⟨uid, [], [], 0, 0, 0, [], 0, 0, [x]⟩) = Except.ok t3 ∧
        t3.categories = goSplitComma x ∧ 2 ≤ t3.categories.length)) :=
  ⟨by decide, by decide,
    C10_categories_roundtrip 9
      ⟨"t1".toList, "Buy".toList, [], 0, 0, 0, [], 0, 0,
        ["home".toList, "work".toList]⟩ (by decide) (by decide)⟩

end Sogcli
